import Mathlib

/-!
Verification of the Clustering & Analysis Layer of CaseLinker
(`src/Clustering & Analysis Layer/analysis.py`).

Cases are Python dicts accessed with permissive `.get`; we embed them as a
structure of optional / list-valued fields.  An absent key and a present but
falsy value (empty dict, empty list) behave identically under the code's
truthiness checks, so mappings are embedded as `Option` of a structure where
`none` covers "absent or empty dict" and string-keyed sub-fields are `Option
String` (`none` = key absent or value `None`).  Python floats are idealised as
rationals (`ℚ`); `datetime.fromisoformat` is modelled for the date-only form
`YYYY-MM-DD` (the only form the data model's ISO-8601 date strings use), with
Python's calendar (proleptic Gregorian, year ≥ 1) and day arithmetic.
-/

namespace CaseLinker

/-- A `victim_demographics` / `perpetrator_demographics` mapping (non-empty
dict).  Each field is `Option String`: `none` when the key is absent, matching
`d.get(key)` returning `None`. -/
structure Demographics where
  age_range : Option String
  region : Option String
  anonymized_id : Option String
deriving DecidableEq, Repr

/-- A `date_range` mapping (non-empty dict) with optional `start`/`end`
ISO-8601 strings. -/
structure DateRange where
  start : Option String
  end_ : Option String
deriving DecidableEq, Repr

/-- A case record: the fields of the Python case dict that the analysis layer
reads.  List-valued fields default to `[]` in the code (`case.get(k, [])`), so
a plain `List` suffices; mapping-valued fields use `Option` (`none` = absent
key or empty dict, both falsy in Python). -/
structure Case where
  id : Option String
  source : Option String
  platforms_used : List String
  technologies : List String
  communication_methods : List String
  investigation_methods_and_teams : List String
  case_topics : List String
  victim_demographics : Option Demographics
  perpetrator_demographics : Option Demographics
  date_range : Option DateRange
deriving DecidableEq, Repr

/-- Python truthiness of an optional string: `None` and `""` are falsy. -/
def truthy (o : Option String) : Bool :=
  match o with
  | some s => s != ""
  | none => false

/-! ### Model of `datetime.fromisoformat` for date-only strings -/

/-- A parsed calendar date (what `datetime.fromisoformat` returns, at
midnight). -/
structure PyDate where
  year : Nat
  month : Nat
  day : Nat
deriving DecidableEq, Repr

/-- Gregorian leap-year rule (as in Python's `calendar.isleap`). -/
def isLeapYear (y : Nat) : Bool :=
  (y % 4 == 0 && y % 100 != 0) || (y % 400 == 0)

/-- Number of days in a month of the proleptic Gregorian calendar. -/
def daysInMonth (y m : Nat) : Nat :=
  if m = 2 then (if isLeapYear y then 29 else 28)
  else if m = 4 ∨ m = 6 ∨ m = 9 ∨ m = 11 then 30 else 31

/-- Absolute day number of a civil date (standard days-from-civil formula,
valid for `year ≥ 1`); only differences of day numbers are used, matching
`(d1 - d2).days` on midnight datetimes. -/
def civilDayNumber (y m d : Nat) : Nat :=
  let y' := if m ≤ 2 then y - 1 else y
  let mp := (m + 9) % 12
  let doy := (153 * mp + 2) / 5 + (d - 1)
  365 * y' + y' / 4 - y' / 100 + y' / 400 + doy

/-- Absolute day number of a parsed date. -/
def PyDate.toDayNumber (d : PyDate) : Nat :=
  civilDayNumber d.year d.month d.day

def digitVal (c : Char) : Nat := c.toNat - '0'.toNat

/-- Model of `datetime.fromisoformat` restricted to the `YYYY-MM-DD` form:
`none` means the call raises `ValueError` (unparseable).  Python requires
`1 ≤ year`, `1 ≤ month ≤ 12`, `1 ≤ day ≤ daysInMonth`. -/
def fromisoformat (s : String) : Option PyDate :=
  match s.toList with
  | [y1, y2, y3, y4, h1, m1, m2, h2, d1, d2] =>
    if y1.isDigit && y2.isDigit && y3.isDigit && y4.isDigit &&
       (h1 == '-') && m1.isDigit && m2.isDigit &&
       (h2 == '-') && d1.isDigit && d2.isDigit then
      let y := 1000 * digitVal y1 + 100 * digitVal y2 + 10 * digitVal y3 + digitVal y4
      let m := 10 * digitVal m1 + digitVal m2
      let d := 10 * digitVal d1 + digitVal d2
      if 1 ≤ y && 1 ≤ m && m ≤ 12 && 1 ≤ d && d ≤ daysInMonth y m then
        some ⟨y, m, d⟩
      else none
    else none
  | _ => none

/-! ### `compare_cases` and `calculate_time_similarity` -/

/-- Jaccard term of the code:
`len(a & b) / len(a | b) if (a | b) else 0.0`. -/
def jaccard (a b : Finset String) : ℚ :=
  if a ∪ b ≠ ∅ then ((a ∩ b).card : ℚ) / ((a ∪ b).card : ℚ) else 0

/-- The `demo_sim` accumulation for victim demographics: Python `==` on the
results of `.get` compares optional values, so two absent fields compare
equal. -/
def victimDemoSim (v1 v2 : Demographics) : ℚ :=
  (if v1.age_range = v2.age_range then (1 : ℚ) / 2 else 0) +
  (if v1.region = v2.region then (1 : ℚ) / 2 else 0)

/-- The `perp_sim` accumulation for perpetrator demographics; the
`anonymized_id` credit additionally requires the first side's id to be truthy
(non-`None`, non-empty). -/
def perpDemoSim (p1 p2 : Demographics) : ℚ :=
  (if p1.age_range = p2.age_range then (3 : ℚ) / 10 else 0) +
  (if p1.region = p2.region then (3 : ℚ) / 10 else 0) +
  (if p1.anonymized_id = p2.anonymized_id ∧ truthy p1.anonymized_id then (2 : ℚ) / 5 else 0)

/-- `calculate_time_similarity(date1, date2)`: both `start` values must be
truthy and parse; the day distance `d` then scores `1 - d/365` within a year
and `max(0, 1 - d/1825)` beyond; any failure returns `0.0` (the bare
`except` clause). -/
def calculate_time_similarity (date1 date2 : DateRange) : ℚ :=
  match date1.start, date2.start with
  | some s1, some s2 =>
    if s1 = "" ∨ s2 = "" then 0
    else
      match fromisoformat s1, fromisoformat s2 with
      | some d1, some d2 =>
        let days_diff : Nat := ((d1.toDayNumber : ℤ) - (d2.toDayNumber : ℤ)).natAbs
        if days_diff ≤ 365 then 1 - (days_diff : ℚ) / 365
        else max 0 (1 - (days_diff : ℚ) / 1825)
      | _, _ => 0
  | _, _ => 0

/-- The `platform_sim * 0.3` entry appended by the platforms block of
`compare_cases` (empty when the sub-metric is disabled or both platform sets
are empty). -/
def platformScores (case1 case2 : Case) (ms : List String) : List ℚ :=
  if "all" ∈ ms ∨ "platforms" ∈ ms then
    let platforms1 := case1.platforms_used.toFinset
    let platforms2 := case2.platforms_used.toFinset
    if platforms1 ≠ ∅ ∨ platforms2 ≠ ∅ then [jaccard platforms1 platforms2 * (3 / 10)] else []
  else []

/-- The `tech_sim * 0.2` entry appended by the first half of the methods
block of `compare_cases`. -/
def techScores (case1 case2 : Case) (ms : List String) : List ℚ :=
  if "all" ∈ ms ∨ "methods" ∈ ms then
    let tech1 := case1.technologies.toFinset
    let tech2 := case2.technologies.toFinset
    if tech1 ≠ ∅ ∨ tech2 ≠ ∅ then [jaccard tech1 tech2 * (1 / 5)] else []
  else []

/-- The `comm_sim * 0.15` entry appended by the second half of the methods
block of `compare_cases`. -/
def commScores (case1 case2 : Case) (ms : List String) : List ℚ :=
  if "all" ∈ ms ∨ "methods" ∈ ms then
    let comm1 := case1.communication_methods.toFinset
    let comm2 := case2.communication_methods.toFinset
    if comm1 ≠ ∅ ∨ comm2 ≠ ∅ then [jaccard comm1 comm2 * (3 / 20)] else []
  else []

/-- The `demo_sim * 0.15` entry appended by the victim-demographics block of
`compare_cases` (requires both mappings present and non-empty). -/
def victimScores (case1 case2 : Case) (ms : List String) : List ℚ :=
  if "all" ∈ ms ∨ "demographics" ∈ ms then
    match case1.victim_demographics, case2.victim_demographics with
    | some v1, some v2 => [victimDemoSim v1 v2 * (3 / 20)]
    | _, _ => []
  else []

/-- The `perp_sim * 0.1` entry appended by the perpetrator-demographics block
of `compare_cases`. -/
def perpScores (case1 case2 : Case) (ms : List String) : List ℚ :=
  if "all" ∈ ms ∨ "demographics" ∈ ms then
    match case1.perpetrator_demographics, case2.perpetrator_demographics with
    | some p1, some p2 => [perpDemoSim p1 p2 * (1 / 10)]
    | _, _ => []
  else []

/-- The `time_sim * 0.1` entry appended by the time block of `compare_cases`
(requires both `date_range` mappings present and non-empty). -/
def timeScores (case1 case2 : Case) (ms : List String) : List ℚ :=
  if "all" ∈ ms ∨ "time" ∈ ms then
    match case1.date_range, case2.date_range with
    | some date1, some date2 => [calculate_time_similarity date1 date2 * (1 / 10)]
    | _, _ => []
  else []

/-- `compare_cases(case1, case2, metrics)`: `metrics=None` defaults to
`['all']`; the `similarity_scores` list is the concatenation of the entries
appended by each block in program order, and the result is its sum (Python's
`sum([])` is `0`, so the final `if similarity_scores else 0.0` is the plain
sum). -/
def compare_cases (case1 case2 : Case) (metrics : Option (List String)) : ℚ :=
  let ms := metrics.getD ["all"]
  (platformScores case1 case2 ms ++ techScores case1 case2 ms ++ commScores case1 case2 ms ++
   victimScores case1 case2 ms ++ perpScores case1 case2 ms ++ timeScores case1 case2 ms).sum

/-! ### `find_similar_cases` -/

/-- The `similar_cases` list built by the loop of `find_similar_cases` before
sorting: skip any case whose `id` equals the target's (`None == None` also
skips), keep `(case, similarity)` when `similarity ≥ threshold`. -/
def similar_candidates (target_case : Case) (all_cases : List Case) (threshold : ℚ)
    (metrics : Option (List String)) : List (Case × ℚ) :=
  all_cases.filterMap fun c =>
    if c.id = target_case.id then none
    else
      let similarity := compare_cases target_case c metrics
      if threshold ≤ similarity then some (c, similarity) else none

/-- `find_similar_cases(target_case, all_cases, threshold, metrics)`:
`similar_cases.sort(key=lambda x: x[1], reverse=True)` is a stable descending
sort by score, embedded as the stable `mergeSort` with the "score not below"
comparison. -/
def find_similar_cases (target_case : Case) (all_cases : List Case) (threshold : ℚ)
    (metrics : Option (List String)) : List (Case × ℚ) :=
  (similar_candidates target_case all_cases threshold metrics).mergeSort
    fun x y => decide (y.2 ≤ x.2)

/-! ### `cluster_cases` -/

/-- The metric subset selected from `dimension` inside the clustering loop. -/
def dimensionMetrics (dimension : Option String) : Option (List String) :=
  if dimension = some "platform" then some ["platforms"]
  else if dimension = some "method" then some ["methods"]
  else if dimension = some "region" then some ["demographics"]
  else if dimension = some "time" then some ["time"]
  else none

/-- `cluster_cases(cases, threshold, dimension)` — single-pass greedy seed
clustering.  The index/`assigned`-set loop of the source is embedded
recursively: the first unassigned case seeds a cluster; each later unassigned
case similar to the seed joins the cluster (and is marked assigned, i.e.
removed); the remaining cases, in order, are processed recursively.  The
source's `if cluster:` guard is vacuous since a cluster always holds its
seed. -/
def cluster_cases (cases : List Case) (threshold : ℚ) (dimension : Option String) :
    List (List Case) :=
  match cases with
  | [] => []
  | case1 :: rest =>
    let metrics := dimensionMetrics dimension
    let joins := fun case2 => decide (threshold ≤ compare_cases case1 case2 metrics)
    (case1 :: rest.filter joins) ::
      cluster_cases (rest.filter fun c => ! joins c) threshold dimension
termination_by cases.length
decreasing_by
  simp only [List.length_cons]
  exact Nat.lt_succ_of_le (List.length_filter_le _ _)

/-! ### `entity_matching` -/

/-- One step of `defaultdict(list)` accumulation: append `v` to the entry for
`k`, creating the entry at the end (Python dicts preserve key insertion
order) when missing. -/
def addToGroup {κ β : Type} [DecidableEq κ] :
    List (κ × List β) → κ → β → List (κ × List β)
  | [], k, v => [(k, [v])]
  | (k', vs) :: rest, k, v =>
    if k' = k then (k', vs ++ [v]) :: rest else (k', vs) :: addToGroup rest k v

/-- Fold a key/value sequence into a `defaultdict(list)`-style insertion-order
grouping. -/
def groupPairs {κ β : Type} [DecidableEq κ] (kvs : List (κ × β)) : List (κ × List β) :=
  kvs.foldl (fun m kv => addToGroup m kv.1 kv.2) []

/-- The `for cid2 in case_ids[i+1:]` pairing: all (earlier, later) pairs of a
list, in enumeration order.  (The source's `if len(case_ids) > 1:` guard is
vacuous: a singleton group yields no pairs anyway.) -/
def pairsOf {α : Type} : List α → List (α × α)
  | [] => []
  | x :: xs => xs.map (fun y => (x, y)) ++ pairsOf xs

/-- The truthy perpetrator `anonymized_id` of a case, if any — the grouping
key used by `entity_matching` (`if perp_id:` skips `None` and `""`). -/
def perpKey (c : Case) : Option String :=
  match c.perpetrator_demographics with
  | some pd =>
    match pd.anonymized_id with
    | some pid => if pid = "" then none else some pid
    | none => none
  | none => none

/-- The `perp_map` built by `entity_matching`. -/
def perp_map (cases : List Case) : List (String × List (Option String)) :=
  groupPairs (cases.filterMap fun c => (perpKey c).map fun k => (k, c.id))

/-- The `platform_map` built by `entity_matching`: every occurrence of a
platform string in a case's `platforms_used` list appends that case's id. -/
def platform_map (cases : List Case) : List (String × List (Option String)) :=
  groupPairs (cases.flatMap fun c => c.platforms_used.map fun p => (p, c.id))

/-- A link tuple `(case_id1, case_id2, link_type)`; the ids are
`case.get('id')` values, hence optional. -/
abbrev Link := Option String × Option String × String

/-- `entity_matching(cases)`: `same_perpetrator` pairs per perpetrator group,
then `same_platform` pairs per platform group. -/
def entity_matching (cases : List Case) : List Link :=
  ((perp_map cases).flatMap fun e => (pairsOf e.2).map fun p => (p.1, p.2, "same_perpetrator")) ++
  ((platform_map cases).flatMap fun e => (pairsOf e.2).map fun p => (p.1, p.2, "same_platform"))

/-! ### `trend_analysis` -/

/-- The calendar year of a case's parsed `date_range.start`, if the start is
truthy and parseable — the bucketing key of `trend_analysis` (missing or
unparseable starts fall through silently). -/
def startYear (c : Case) : Option Nat :=
  match c.date_range with
  | some dr =>
    match dr.start with
    | some s => if s = "" then none else (fromisoformat s).map PyDate.year
    | none => none
  | none => none

/-- The `time_periods` defaultdict: cases grouped by start year, years in
first-encounter order, cases in input order within a year. -/
def time_periods (cases : List Case) : List (Nat × List Case) :=
  groupPairs (cases.filterMap fun c => (startYear c).map fun y => (y, c))

/-- `Counter(xs)` as an insertion-ordered association list of counts: keys in
first-encounter order (Python dict order), each mapped to its number of
occurrences — modelled by grouping each occurrence and taking group sizes. -/
def counterList (xs : List String) : List (String × Nat) :=
  (groupPairs (xs.map fun x => (x, x))).map fun e => (e.1, e.2.length)

/-- `Counter.most_common(n)`: entries sorted by count descending, ties in
insertion order (CPython's `nlargest` matches `sorted(..., reverse=True)[:n]`
including stability), truncated to `n`. -/
def most_common (n : Nat) (c : List (String × Nat)) : List (String × Nat) :=
  (c.mergeSort fun x y => decide (y.2 ≤ x.2)).take n

/-- `sorted(time_periods.items())`: buckets in ascending year order (years
are distinct, so tuple comparison is year comparison). -/
def sortByYear (tp : List (Nat × List Case)) : List (Nat × List Case) :=
  tp.mergeSort fun x y => decide (x.1 ≤ y.1)

/-- The trend summary fields computed by `trend_analysis` (the
`method_evolution` and `temporal_patterns` keys are created but never
populated, so they are omitted). -/
structure Trends where
  platform_trends : List (Nat × List (String × Nat))
  technology_trends : List (Nat × List (String × Nat))
  recurring_topics : List String
deriving DecidableEq, Repr

/-- `trend_analysis(cases)`. -/
def trend_analysis (cases : List Case) : Trends :=
  let tp := sortByYear (time_periods cases)
  { platform_trends :=
      tp.map fun e => (e.1, most_common 5 (counterList (e.2.flatMap Case.platforms_used))),
    technology_trends :=
      tp.map fun e => (e.1, most_common 5 (counterList (e.2.flatMap Case.technologies))),
    recurring_topics :=
      (most_common 10 (counterList (cases.flatMap Case.case_topics))).map Prod.fst }

/-! ### `matches_filter` -/

/-- The filter dictionary of `matches_filter`: the outer `Option` is key
presence (`'source' in filters`), the inner value is what the key maps to. -/
structure Filters where
  source : Option (Option String)
  platforms : Option (List String)
  date_range : Option DateRange
deriving DecidableEq, Repr

/-- The `filter_end` comparison at the end of the date block: rejects when
`case_dt > filter_end_dt`; a falsy or unparseable `filter_end` never rejects
(the bare `except` catches the parse failure). -/
def checkEndReject (caseDay : Nat) (fd : DateRange) : Bool :=
  match fd.end_ with
  | some fe =>
    if fe = "" then false
    else
      match fromisoformat fe with
      | some fed => decide (fed.toDayNumber < caseDay)
      | none => false
  | none => false

/-- The `'date_range'` block of `matches_filter`: returns `true` exactly when
the block executes `return False`.  A missing, falsy or unparseable case
start skips the predicate entirely; an unparseable `filter_start` aborts the
whole `try` block (skipping the end check as well) without rejecting. -/
def dateReject (case_date : Option DateRange) (fd : DateRange) : Bool :=
  match case_date with
  | none => false
  | some cd =>
    match cd.start with
    | none => false
    | some s =>
      if s = "" then false
      else
        match fromisoformat s with
        | none => false
        | some cased =>
          match fd.start with
          | some fs =>
            if fs = "" then checkEndReject cased.toDayNumber fd
            else
              match fromisoformat fs with
              | some fsd =>
                if cased.toDayNumber < fsd.toDayNumber then true
                else checkEndReject cased.toDayNumber fd
              | none => false
          | none => checkEndReject cased.toDayNumber fd

/-- `matches_filter(case, filters)`: conjunction of the exact-source check,
the platform-overlap check and the date-window check; every predicate is
total (no filter predicate raises — modelled by this being a total `Bool`
function). -/
def matches_filter (c : Case) (filters : Filters) : Bool :=
  if (match filters.source with
      | some fs => decide (c.source ≠ fs)
      | none => false) then false
  else if (match filters.platforms with
      | some fps => decide (c.platforms_used.toFinset ∩ fps.toFinset = ∅)
      | none => false) then false
  else if (match filters.date_range with
      | some fd => dateReject c.date_range fd
      | none => false) then false
  else true

/-- An all-empty case: every key absent (list fields default to `[]`). -/
def emptyCase : Case :=
  { id := none, source := none, platforms_used := [], technologies := [],
    communication_methods := [], investigation_methods_and_teams := [],
    case_topics := [], victim_demographics := none,
    perpetrator_demographics := none, date_range := none }

/-! ### Bounds for the similarity components -/

lemma jaccard_nonneg (a b : Finset String) : 0 ≤ jaccard a b := by
  unfold jaccard
  split_ifs
  · positivity
  · exact le_refl 0

lemma jaccard_le_one (a b : Finset String) : jaccard a b ≤ 1 := by
  unfold jaccard
  split_ifs with h
  · rw [div_le_one]
    · exact_mod_cast Finset.card_le_card Finset.inter_subset_union
    · exact_mod_cast Finset.card_pos.mpr (Finset.nonempty_iff_ne_empty.mpr h)
  · norm_num

lemma jaccard_comm (a b : Finset String) : jaccard a b = jaccard b a := by
  unfold jaccard
  by_cases h : a ∪ b ≠ ∅
  · have h' : b ∪ a ≠ ∅ := by rwa [Finset.union_comm]
    simp only [h, h', if_true, Finset.union_comm a b, Finset.inter_comm a b]
  · have h' : ¬ b ∪ a ≠ ∅ := by rwa [Finset.union_comm]
    simp [h, h']

lemma victimDemoSim_nonneg (v1 v2 : Demographics) : 0 ≤ victimDemoSim v1 v2 := by
  unfold victimDemoSim
  split_ifs <;> norm_num

lemma victimDemoSim_le_one (v1 v2 : Demographics) : victimDemoSim v1 v2 ≤ 1 := by
  unfold victimDemoSim
  split_ifs <;> norm_num

lemma victimDemoSim_comm (v1 v2 : Demographics) : victimDemoSim v1 v2 = victimDemoSim v2 v1 := by
  unfold victimDemoSim
  by_cases h1 : v1.age_range = v2.age_range <;>
    by_cases h2 : v1.region = v2.region <;>
      simp [h1, h2, eq_comm]

lemma perpDemoSim_nonneg (p1 p2 : Demographics) : 0 ≤ perpDemoSim p1 p2 := by
  unfold perpDemoSim
  split_ifs <;> norm_num

lemma perpDemoSim_le_one (p1 p2 : Demographics) : perpDemoSim p1 p2 ≤ 1 := by
  unfold perpDemoSim
  split_ifs <;> norm_num

lemma perpDemoSim_comm (p1 p2 : Demographics) : perpDemoSim p1 p2 = perpDemoSim p2 p1 := by
  unfold perpDemoSim
  have e1 : (p1.age_range = p2.age_range) = (p2.age_range = p1.age_range) :=
    propext ⟨Eq.symm, Eq.symm⟩
  have e2 : (p1.region = p2.region) = (p2.region = p1.region) :=
    propext ⟨Eq.symm, Eq.symm⟩
  have e3 : (p1.anonymized_id = p2.anonymized_id ∧ truthy p1.anonymized_id = true) =
      (p2.anonymized_id = p1.anonymized_id ∧ truthy p2.anonymized_id = true) := by
    apply propext
    constructor
    · rintro ⟨h, t⟩
      exact ⟨h.symm, h ▸ t⟩
    · rintro ⟨h, t⟩
      exact ⟨h.symm, h ▸ t⟩
  simp only [e1, e2, e3]

lemma calculate_time_similarity_nonneg (d1 d2 : DateRange) :
    0 ≤ calculate_time_similarity d1 d2 := by
  unfold calculate_time_similarity
  cases h1 : d1.start with
  | none => simp
  | some s1 =>
    cases h2 : d2.start with
    | none => simp
    | some s2 =>
      simp only
      split_ifs with he
      · exact le_refl 0
      · cases fromisoformat s1 with
        | none => simp
        | some a =>
          cases fromisoformat s2 with
          | none => simp
          | some b =>
            simp only
            split_ifs with hd
            · have : ((((a.toDayNumber : ℤ) - b.toDayNumber).natAbs : ℚ)) ≤ 365 := by
                exact_mod_cast hd
              linarith [this, div_le_one (show (0:ℚ) < 365 by norm_num) |>.mpr this]
            · exact le_max_left 0 _

lemma calculate_time_similarity_le_one (d1 d2 : DateRange) :
    calculate_time_similarity d1 d2 ≤ 1 := by
  unfold calculate_time_similarity
  cases h1 : d1.start with
  | none => simp
  | some s1 =>
    cases h2 : d2.start with
    | none => simp
    | some s2 =>
      simp only
      split_ifs with he
      · norm_num
      · cases fromisoformat s1 with
        | none => simp
        | some a =>
          cases fromisoformat s2 with
          | none => simp
          | some b =>
            simp only
            have hnn : (0:ℚ) ≤ (((a.toDayNumber : ℤ) - b.toDayNumber).natAbs : ℚ) := by
              positivity
            split_ifs with hd
            · have : (0:ℚ) ≤ (((a.toDayNumber : ℤ) - b.toDayNumber).natAbs : ℚ) / 365 := by
                positivity
              linarith
            · refine max_le (by norm_num) ?_
              have : (0:ℚ) ≤ (((a.toDayNumber : ℤ) - b.toDayNumber).natAbs : ℚ) / 1825 := by
                positivity
              linarith

lemma calculate_time_similarity_comm (d1 d2 : DateRange) :
    calculate_time_similarity d1 d2 = calculate_time_similarity d2 d1 := by
  unfold calculate_time_similarity
  cases h1 : d1.start with
  | none => cases h2 : d2.start <;> simp
  | some s1 =>
    cases h2 : d2.start with
    | none => simp
    | some s2 =>
      simp only
      by_cases he : s1 = "" ∨ s2 = ""
      · have he' : s2 = "" ∨ s1 = "" := he.symm
        simp [he, he']
      · have he' : ¬ (s2 = "" ∨ s1 = "") := fun h => he h.symm
        simp only [he, he', if_false]
        cases fromisoformat s1 <;> cases fromisoformat s2 <;> simp only
        rename_i a b
        rw [show ((a.toDayNumber : ℤ) - b.toDayNumber) = -((b.toDayNumber : ℤ) - a.toDayNumber)
              by ring,
            Int.natAbs_neg]

/-! ### Per-component bounds and symmetry for `compare_cases` -/

lemma platformScores_sum_mem (case1 case2 : Case) (ms : List String) :
    0 ≤ (platformScores case1 case2 ms).sum ∧ (platformScores case1 case2 ms).sum ≤ 3 / 10 := by
  simp only [platformScores]
  split_ifs with h1 h2
  · simp only [List.sum_cons, List.sum_nil, add_zero]
    constructor
    · exact mul_nonneg (jaccard_nonneg _ _) (by norm_num)
    · calc jaccard _ _ * (3 / 10) ≤ 1 * (3 / 10) :=
            mul_le_mul_of_nonneg_right (jaccard_le_one _ _) (by norm_num)
      _ = 3 / 10 := one_mul _
  · exact ⟨le_refl 0, by rw [List.sum_nil]; norm_num⟩
  · exact ⟨le_refl 0, by rw [List.sum_nil]; norm_num⟩

lemma techScores_sum_mem (case1 case2 : Case) (ms : List String) :
    0 ≤ (techScores case1 case2 ms).sum ∧ (techScores case1 case2 ms).sum ≤ 1 / 5 := by
  simp only [techScores]
  split_ifs with h1 h2
  · simp only [List.sum_cons, List.sum_nil, add_zero]
    constructor
    · exact mul_nonneg (jaccard_nonneg _ _) (by norm_num)
    · calc jaccard _ _ * (1 / 5) ≤ 1 * (1 / 5) :=
            mul_le_mul_of_nonneg_right (jaccard_le_one _ _) (by norm_num)
      _ = 1 / 5 := one_mul _
  · exact ⟨le_refl 0, by rw [List.sum_nil]; norm_num⟩
  · exact ⟨le_refl 0, by rw [List.sum_nil]; norm_num⟩

lemma commScores_sum_mem (case1 case2 : Case) (ms : List String) :
    0 ≤ (commScores case1 case2 ms).sum ∧ (commScores case1 case2 ms).sum ≤ 3 / 20 := by
  simp only [commScores]
  split_ifs with h1 h2
  · simp only [List.sum_cons, List.sum_nil, add_zero]
    constructor
    · exact mul_nonneg (jaccard_nonneg _ _) (by norm_num)
    · calc jaccard _ _ * (3 / 20) ≤ 1 * (3 / 20) :=
            mul_le_mul_of_nonneg_right (jaccard_le_one _ _) (by norm_num)
      _ = 3 / 20 := one_mul _
  · exact ⟨le_refl 0, by rw [List.sum_nil]; norm_num⟩
  · exact ⟨le_refl 0, by rw [List.sum_nil]; norm_num⟩

lemma victimScores_sum_mem (case1 case2 : Case) (ms : List String) :
    0 ≤ (victimScores case1 case2 ms).sum ∧ (victimScores case1 case2 ms).sum ≤ 3 / 20 := by
  unfold victimScores
  split_ifs with h1
  · cases case1.victim_demographics with
    | none => cases case2.victim_demographics <;> exact ⟨le_refl 0, by norm_num⟩
    | some v1 =>
      cases case2.victim_demographics with
      | none => exact ⟨le_refl 0, by norm_num⟩
      | some v2 =>
        simp only [List.sum_cons, List.sum_nil, add_zero]
        constructor
        · exact mul_nonneg (victimDemoSim_nonneg _ _) (by norm_num)
        · calc victimDemoSim v1 v2 * (3 / 20) ≤ 1 * (3 / 20) :=
                mul_le_mul_of_nonneg_right (victimDemoSim_le_one _ _) (by norm_num)
          _ = 3 / 20 := one_mul _
  · exact ⟨le_refl 0, by norm_num⟩

lemma perpScores_sum_mem (case1 case2 : Case) (ms : List String) :
    0 ≤ (perpScores case1 case2 ms).sum ∧ (perpScores case1 case2 ms).sum ≤ 1 / 10 := by
  unfold perpScores
  split_ifs with h1
  · cases case1.perpetrator_demographics with
    | none => cases case2.perpetrator_demographics <;> exact ⟨le_refl 0, by norm_num⟩
    | some p1 =>
      cases case2.perpetrator_demographics with
      | none => exact ⟨le_refl 0, by norm_num⟩
      | some p2 =>
        simp only [List.sum_cons, List.sum_nil, add_zero]
        constructor
        · exact mul_nonneg (perpDemoSim_nonneg _ _) (by norm_num)
        · calc perpDemoSim p1 p2 * (1 / 10) ≤ 1 * (1 / 10) :=
                mul_le_mul_of_nonneg_right (perpDemoSim_le_one _ _) (by norm_num)
          _ = 1 / 10 := one_mul _
  · exact ⟨le_refl 0, by norm_num⟩

lemma timeScores_sum_mem (case1 case2 : Case) (ms : List String) :
    0 ≤ (timeScores case1 case2 ms).sum ∧ (timeScores case1 case2 ms).sum ≤ 1 / 10 := by
  unfold timeScores
  split_ifs with h1
  · cases case1.date_range with
    | none => cases case2.date_range <;> exact ⟨le_refl 0, by norm_num⟩
    | some date1 =>
      cases case2.date_range with
      | none => exact ⟨le_refl 0, by norm_num⟩
      | some date2 =>
        simp only [List.sum_cons, List.sum_nil, add_zero]
        constructor
        · exact mul_nonneg (calculate_time_similarity_nonneg _ _) (by norm_num)
        · calc calculate_time_similarity date1 date2 * (1 / 10) ≤ 1 * (1 / 10) :=
                mul_le_mul_of_nonneg_right (calculate_time_similarity_le_one _ _) (by norm_num)
          _ = 1 / 10 := one_mul _
  · exact ⟨le_refl 0, by norm_num⟩

lemma compare_cases_nonneg (case1 case2 : Case) (metrics : Option (List String)) :
    0 ≤ compare_cases case1 case2 metrics := by
  unfold compare_cases
  simp only [List.sum_append]
  have h1 := platformScores_sum_mem case1 case2 (metrics.getD ["all"])
  have h2 := techScores_sum_mem case1 case2 (metrics.getD ["all"])
  have h3 := commScores_sum_mem case1 case2 (metrics.getD ["all"])
  have h4 := victimScores_sum_mem case1 case2 (metrics.getD ["all"])
  have h5 := perpScores_sum_mem case1 case2 (metrics.getD ["all"])
  have h6 := timeScores_sum_mem case1 case2 (metrics.getD ["all"])
  linarith [h1.1, h2.1, h3.1, h4.1, h5.1, h6.1]

lemma compare_cases_le_one (case1 case2 : Case) (metrics : Option (List String)) :
    compare_cases case1 case2 metrics ≤ 1 := by
  unfold compare_cases
  simp only [List.sum_append]
  have h1 := platformScores_sum_mem case1 case2 (metrics.getD ["all"])
  have h2 := techScores_sum_mem case1 case2 (metrics.getD ["all"])
  have h3 := commScores_sum_mem case1 case2 (metrics.getD ["all"])
  have h4 := victimScores_sum_mem case1 case2 (metrics.getD ["all"])
  have h5 := perpScores_sum_mem case1 case2 (metrics.getD ["all"])
  have h6 := timeScores_sum_mem case1 case2 (metrics.getD ["all"])
  linarith [h1.2, h2.2, h3.2, h4.2, h5.2, h6.2]

lemma platformScores_comm (case1 case2 : Case) (ms : List String) :
    platformScores case1 case2 ms = platformScores case2 case1 ms := by
  unfold platformScores
  have e : (case1.platforms_used.toFinset ≠ ∅ ∨ case2.platforms_used.toFinset ≠ ∅) =
      (case2.platforms_used.toFinset ≠ ∅ ∨ case1.platforms_used.toFinset ≠ ∅) :=
    propext or_comm
  simp only [e, jaccard_comm case1.platforms_used.toFinset]

lemma techScores_comm (case1 case2 : Case) (ms : List String) :
    techScores case1 case2 ms = techScores case2 case1 ms := by
  unfold techScores
  have e : (case1.technologies.toFinset ≠ ∅ ∨ case2.technologies.toFinset ≠ ∅) =
      (case2.technologies.toFinset ≠ ∅ ∨ case1.technologies.toFinset ≠ ∅) :=
    propext or_comm
  simp only [e, jaccard_comm case1.technologies.toFinset]

lemma commScores_comm (case1 case2 : Case) (ms : List String) :
    commScores case1 case2 ms = commScores case2 case1 ms := by
  unfold commScores
  have e : (case1.communication_methods.toFinset ≠ ∅ ∨ case2.communication_methods.toFinset ≠ ∅) =
      (case2.communication_methods.toFinset ≠ ∅ ∨ case1.communication_methods.toFinset ≠ ∅) :=
    propext or_comm
  simp only [e, jaccard_comm case1.communication_methods.toFinset]

lemma victimScores_comm (case1 case2 : Case) (ms : List String) :
    victimScores case1 case2 ms = victimScores case2 case1 ms := by
  unfold victimScores
  cases case1.victim_demographics <;> cases case2.victim_demographics <;>
    simp only [victimDemoSim_comm]

lemma perpScores_comm (case1 case2 : Case) (ms : List String) :
    perpScores case1 case2 ms = perpScores case2 case1 ms := by
  unfold perpScores
  cases case1.perpetrator_demographics <;> cases case2.perpetrator_demographics <;>
    simp only [perpDemoSim_comm]

lemma timeScores_comm (case1 case2 : Case) (ms : List String) :
    timeScores case1 case2 ms = timeScores case2 case1 ms := by
  unfold timeScores
  cases case1.date_range <;> cases case2.date_range <;>
    simp only [calculate_time_similarity_comm]

/-! ### Claims C1, C2, C10 -/

/-- A case whose only populated field is `platforms_used = ["Discord"]`. -/
def discordOnlyCase : Case :=
  { emptyCase with platforms_used := ["Discord"] }

/-- C1: for two cases that each have `platforms_used = {"Discord"}` and no
other populated fields, `compare_cases` with the full metric selector
(`metrics = None`) returns exactly 0.30: the platform Jaccard is 1.0 weighted
by 0.30, every other sub-metric has no data on both sides and contributes
neither score nor weight, and the total is not renormalized. -/
theorem C1_discord_only_pair_scores_030 :
    compare_cases discordOnlyCase discordOnlyCase none = 3 / 10 := by
  norm_num [compare_cases, platformScores, techScores, commScores, victimScores,
    perpScores, timeScores, discordOnlyCase, emptyCase, jaccard]

/-- C2: for every pair of cases and every metric selector, `compare_cases`
returns a value in the closed interval `[0, 1]`. -/
theorem C2_compare_cases_in_unit_interval (case1 case2 : Case)
    (metrics : Option (List String)) :
    0 ≤ compare_cases case1 case2 metrics ∧ compare_cases case1 case2 metrics ≤ 1 :=
  ⟨compare_cases_nonneg case1 case2 metrics, compare_cases_le_one case1 case2 metrics⟩

/-- C10: `compare_cases` is symmetric in its two case arguments for every
metric selector. -/
theorem C10_compare_cases_symmetric (case1 case2 : Case)
    (metrics : Option (List String)) :
    compare_cases case1 case2 metrics = compare_cases case2 case1 metrics := by
  simp only [compare_cases]
  rw [platformScores_comm case1 case2, techScores_comm case1 case2,
    commScores_comm case1 case2, victimScores_comm case1 case2,
    perpScores_comm case1 case2, timeScores_comm case1 case2]

/-! ### Claim C7: the time sub-metric -/

lemma fromisoformat_ne_empty {s : String} {p : PyDate} (h : fromisoformat s = some p) :
    s ≠ "" := by
  intro he
  rw [he, show fromisoformat "" = none from by decide] at h
  exact Option.noConfusion h

/-- C7: when both cases have a parseable `date_range.start` at day distance
`d`, the time sub-metric scores `1 - d/365` for `d ≤ 365` and
`max 0 (1 - d/1825)` otherwise; a missing, falsy or unparseable start on
either side scores 0; and `compare_cases` applies the 0.10 weight exactly
when both `date_range` mappings are present and non-empty. -/
theorem C7_time_submetric :
    (∀ (date1 date2 : DateRange) (s1 s2 : String) (p1 p2 : PyDate),
        date1.start = some s1 → date2.start = some s2 →
        fromisoformat s1 = some p1 → fromisoformat s2 = some p2 →
        calculate_time_similarity date1 date2 =
          (if ((p1.toDayNumber : ℤ) - p2.toDayNumber).natAbs ≤ 365
           then 1 - ((((p1.toDayNumber : ℤ) - p2.toDayNumber).natAbs : ℚ)) / 365
           else max 0 (1 - ((((p1.toDayNumber : ℤ) - p2.toDayNumber).natAbs : ℚ)) / 1825))) ∧
    (∀ (date1 date2 : DateRange),
        (date1.start = none ∨ date2.start = none ∨
          (∃ s, (date1.start = some s ∨ date2.start = some s) ∧
                (s = "" ∨ fromisoformat s = none))) →
        calculate_time_similarity date1 date2 = 0) ∧
    (∀ (case1 case2 : Case) (date1 date2 : DateRange),
        case1.date_range = some date1 → case2.date_range = some date2 →
        compare_cases case1 case2 (some ["time"]) =
          calculate_time_similarity date1 date2 * (1 / 10)) ∧
    (∀ (case1 case2 : Case),
        case1.date_range = none ∨ case2.date_range = none →
        compare_cases case1 case2 (some ["time"]) = 0) := by
  refine ⟨?_, ?_, ?_, ?_⟩
  · intro date1 date2 s1 s2 p1 p2 h1 h2 hp1 hp2
    unfold calculate_time_similarity
    rw [h1, h2]
    simp only
    rw [if_neg (by
      rintro (rfl | rfl)
      · exact fromisoformat_ne_empty hp1 rfl
      · exact fromisoformat_ne_empty hp2 rfl)]
    rw [hp1, hp2]
  · intro date1 date2 h
    unfold calculate_time_similarity
    rcases h with h | h | ⟨s, hs, hbad⟩
    · rw [h]
    · rw [h]
      cases date1.start <;> rfl
    · rcases hs with hs | hs
      · rw [hs]
        cases h2 : date2.start with
        | none => rfl
        | some s2 =>
          simp only
          rcases hbad with rfl | hbad
          · rw [if_pos (Or.inl rfl)]
          · by_cases he : s = "" ∨ s2 = ""
            · rw [if_pos he]
            · rw [if_neg he, hbad]
      · rw [hs]
        cases h1 : date1.start with
        | none => rfl
        | some s1 =>
          simp only
          rcases hbad with rfl | hbad
          · rw [if_pos (Or.inr rfl)]
          · by_cases he : s1 = "" ∨ s = ""
            · rw [if_pos he]
            · rw [if_neg he, hbad]
              cases fromisoformat s1 <;> rfl
  · intro case1 case2 date1 date2 h1 h2
    norm_num [compare_cases, platformScores, techScores, commScores, victimScores,
      perpScores, timeScores, h1, h2,
      show ("all" : String) ≠ "time" from by decide,
      show ("platforms" : String) ≠ "time" from by decide,
      show ("methods" : String) ≠ "time" from by decide,
      show ("demographics" : String) ≠ "time" from by decide]
  · intro case1 case2 h
    rcases h with h | h <;>
      norm_num [compare_cases, platformScores, techScores, commScores, victimScores,
        perpScores, timeScores, h,
        show ("all" : String) ≠ "time" from by decide,
        show ("platforms" : String) ≠ "time" from by decide,
        show ("methods" : String) ≠ "time" from by decide,
        show ("demographics" : String) ≠ "time" from by decide]
    cases case1.date_range <;> simp_all

/-- C7 witness: `date_range.start = "2020-01-01"` on both sides gives time
score 1.0; "2020-01-01" vs "2023-01-01" is 1096 days apart and scores
`1 - 1096/1825 = 729/1825 ≈ 0.399`. -/
theorem C7_time_submetric_witness :
    calculate_time_similarity ⟨some "2020-01-01", none⟩ ⟨some "2020-01-01", none⟩ = 1 ∧
    calculate_time_similarity ⟨some "2020-01-01", none⟩ ⟨some "2023-01-01", none⟩ = 729 / 1825 := by
  constructor
  · rw [C7_time_submetric.1 ⟨some "2020-01-01", none⟩ ⟨some "2020-01-01", none⟩
        "2020-01-01" "2020-01-01" ⟨2020, 1, 1⟩ ⟨2020, 1, 1⟩ rfl rfl (by decide) (by decide)]
    norm_num
  · rw [C7_time_submetric.1 ⟨some "2020-01-01", none⟩ ⟨some "2023-01-01", none⟩
        "2020-01-01" "2023-01-01" ⟨2020, 1, 1⟩ ⟨2023, 1, 1⟩ rfl rfl (by decide) (by decide)]
    rw [show (((⟨2020, 1, 1⟩ : PyDate).toDayNumber : ℤ) -
          ((⟨2023, 1, 1⟩ : PyDate).toDayNumber : ℤ)).natAbs = 1096 from by decide]
    norm_num

/-! ### Claim C6: victim-demographics matching -/

/-- A case whose victim demographics have only a region, `"X"`. -/
def victimRegionXCase : Case :=
  { emptyCase with victim_demographics := some ⟨none, some "X", none⟩ }

/-- A case whose victim demographics have only a region, `"Y"`. -/
def victimRegionYCase : Case :=
  { emptyCase with victim_demographics := some ⟨none, some "Y", none⟩ }

/-- C6 counterexample: both victim demographics are non-empty, `age_range`
is absent on both sides and `region` differs, so by the claim the victim
component should contribute no match credit (total 0); the code instead
credits the `age_range` half because `None == None`, giving
`0.5 * 0.15 = 0.075 = 3/40 ≠ 0`. -/
theorem C6_counterexample :
    compare_cases victimRegionXCase victimRegionYCase (some ["demographics"]) = 3 / 40 ∧
    (3 / 40 : ℚ) ≠ 0 := by
  constructor
  · norm_num [compare_cases, platformScores, techScores, commScores, victimScores,
      perpScores, timeScores, victimRegionXCase, victimRegionYCase, emptyCase, victimDemoSim,
      show ("X" : String) ≠ "Y" from by decide]
  · norm_num

/-- C6 (amended): for cases whose `victim_demographics` mappings are both
present and non-empty (and, to isolate the component, no perpetrator
demographics), the demographics-only score adds 0.5 for `age_range` and 0.5
for `region` whenever the two optional values are *equal* — including when
the field is absent on both sides (`None == None`) — scaled by 0.15. -/
theorem C6_victim_demographics_credit (case1 case2 : Case) (v1 v2 : Demographics)
    (h1 : case1.victim_demographics = some v1) (h2 : case2.victim_demographics = some v2)
    (hp : case1.perpetrator_demographics = none) :
    compare_cases case1 case2 (some ["demographics"]) =
      ((if v1.age_range = v2.age_range then (1 : ℚ) / 2 else 0) +
       (if v1.region = v2.region then (1 : ℚ) / 2 else 0)) * (3 / 20) := by
  norm_num [compare_cases, platformScores, techScores, commScores, victimScores,
    perpScores, timeScores, h1, h2, hp, victimDemoSim,
    show ("all" : String) ≠ "demographics" from by decide,
    show ("platforms" : String) ≠ "demographics" from by decide,
    show ("methods" : String) ≠ "demographics" from by decide,
    show ("time" : String) ≠ "demographics" from by decide]

/-- C6 witness: the amended statement evaluated on the two region-only cases:
the absent `age_range` matches (`None == None`), the differing regions do
not, so the score is `0.5 * 0.15 = 3/40`. -/
theorem C6_victim_demographics_credit_witness :
    compare_cases victimRegionXCase victimRegionYCase (some ["demographics"]) =
      ((if (none : Option String) = none then (1 : ℚ) / 2 else 0) +
       (if (some "X" : Option String) = some "Y" then (1 : ℚ) / 2 else 0)) * (3 / 20) :=
  C6_victim_demographics_credit victimRegionXCase victimRegionYCase
    ⟨none, some "X", none⟩ ⟨none, some "Y", none⟩ rfl rfl rfl

/-! ### Claim C3: `cluster_cases` partitions its input -/

lemma cluster_cases_join_perm (cases : List Case) (threshold : ℚ) (dimension : Option String) :
    (cluster_cases cases threshold dimension).flatten.Perm cases := by
  match cases with
  | [] => simp [cluster_cases]
  | case1 :: rest =>
    have ih := cluster_cases_join_perm
      (rest.filter fun c =>
        ! decide (threshold ≤ compare_cases case1 c (dimensionMetrics dimension)))
      threshold dimension
    simp only [cluster_cases, List.flatten_cons, List.cons_append]
    exact List.Perm.cons case1
      ((List.Perm.append_left _ ih).trans (List.filter_append_perm _ rest))
termination_by cases.length
decreasing_by
  simp only [List.length_cons]
  exact Nat.lt_succ_of_le (List.length_filter_le _ _)

lemma cluster_cases_ne_nil (cases : List Case) (threshold : ℚ) (dimension : Option String) :
    ∀ cl ∈ cluster_cases cases threshold dimension, cl ≠ [] := by
  match cases with
  | [] => simp [cluster_cases]
  | case1 :: rest =>
    have ih := cluster_cases_ne_nil
      (rest.filter fun c =>
        ! decide (threshold ≤ compare_cases case1 c (dimensionMetrics dimension)))
      threshold dimension
    simp only [cluster_cases, List.mem_cons]
    rintro cl (rfl | hcl)
    · exact List.cons_ne_nil _ _
    · exact ih cl hcl
termination_by cases.length
decreasing_by
  simp only [List.length_cons]
  exact Nat.lt_succ_of_le (List.length_filter_le _ _)

lemma cluster_cases_heads_sublist (cases : List Case) (threshold : ℚ)
    (dimension : Option String) :
    ((cluster_cases cases threshold dimension).filterMap List.head?).Sublist cases := by
  match cases with
  | [] => simp [cluster_cases]
  | case1 :: rest =>
    have ih := cluster_cases_heads_sublist
      (rest.filter fun c =>
        ! decide (threshold ≤ compare_cases case1 c (dimensionMetrics dimension)))
      threshold dimension
    simp only [cluster_cases, List.filterMap_cons, List.head?_cons, Option.toList_some]
    refine List.Sublist.cons₂ case1 ?_
    exact ih.trans (List.filter_sublist rest)
termination_by cases.length
decreasing_by
  simp only [List.length_cons]
  exact Nat.lt_succ_of_le (List.length_filter_le _ _)

/-- C3: for every input list, threshold and dimension, `cluster_cases`
returns a partition of its input: the concatenation of the clusters is a
permutation of the input (every input case is in exactly one cluster,
counting multiplicity), every cluster is non-empty, the cluster sizes sum to
the input length, and the seeds (cluster heads) appear in input order, i.e.
cluster order follows first-seed-encounter order. -/
theorem C3_cluster_cases_partition (cases : List Case) (threshold : ℚ)
    (dimension : Option String) :
    (cluster_cases cases threshold dimension).flatten.Perm cases ∧
    (∀ cl ∈ cluster_cases cases threshold dimension, cl ≠ []) ∧
    ((cluster_cases cases threshold dimension).map List.length).sum = cases.length ∧
    ((cluster_cases cases threshold dimension).filterMap List.head?).Sublist cases := by
  refine ⟨cluster_cases_join_perm cases threshold dimension,
    cluster_cases_ne_nil cases threshold dimension, ?_,
    cluster_cases_heads_sublist cases threshold dimension⟩
  rw [← List.length_flatten]
  exact (cluster_cases_join_perm cases threshold dimension).length_eq

/-- C3 witness: the partition facts instantiated on a concrete singleton
input: its one cluster is non-empty, the flattened clusters are a permutation
of the input, and the sizes sum to the input length. -/
theorem C3_cluster_cases_partition_witness :
    ([discordOnlyCase] : List Case) ≠ [] ∧
    (cluster_cases [discordOnlyCase] (1 / 2) none).flatten.Perm [discordOnlyCase] ∧
    ((cluster_cases [discordOnlyCase] (1 / 2) none).map List.length).sum = 1 := by
  have hval : cluster_cases [discordOnlyCase] (1 / 2) none = [[discordOnlyCase]] := by
    simp [cluster_cases]
  refine ⟨?_, (C3_cluster_cases_partition [discordOnlyCase] (1 / 2) none).1,
    (C3_cluster_cases_partition [discordOnlyCase] (1 / 2) none).2.2.1⟩
  exact (C3_cluster_cases_partition [discordOnlyCase] (1 / 2) none).2.1
    [discordOnlyCase] (by rw [hval]; exact List.mem_singleton.mpr rfl)

/-! ### Claim C4: `find_similar_cases` -/

lemma similar_candidates_mem {target_case : Case} {all_cases : List Case} {threshold : ℚ}
    {metrics : Option (List String)} {p : Case × ℚ}
    (hp : p ∈ similar_candidates target_case all_cases threshold metrics) :
    p.1.id ≠ target_case.id ∧ threshold ≤ p.2 := by
  simp only [similar_candidates, List.mem_filterMap] at hp
  obtain ⟨c, _, hf⟩ := hp
  split_ifs at hf with h1 h2
  all_goals cases hf
  exact ⟨h1, h2⟩

lemma scoreDescTrans (a b c : Case × ℚ) :
    (fun x y : Case × ℚ => decide (y.2 ≤ x.2)) a b = true →
    (fun x y : Case × ℚ => decide (y.2 ≤ x.2)) b c = true →
    (fun x y : Case × ℚ => decide (y.2 ≤ x.2)) a c = true := by
  simp only [decide_eq_true_eq]
  exact fun hab hbc => le_trans hbc hab

lemma scoreDescTotal (a b : Case × ℚ) :
    ((fun x y : Case × ℚ => decide (y.2 ≤ x.2)) a b ||
     (fun x y : Case × ℚ => decide (y.2 ≤ x.2)) b a) = true := by
  simp only [Bool.or_eq_true, decide_eq_true_eq]
  exact le_total b.2 a.2

/-- C4: `find_similar_cases` never returns a pair whose case id equals the
target's id, every returned pair has score ≥ threshold, the result is sorted
non-increasing by score, and the sort is stable: for every score value `q`,
the subsequence of pairs with score `q` is exactly the corresponding
subsequence of the pre-sort candidate list (which is in input order). -/
theorem C4_find_similar_cases_contract (target_case : Case) (all_cases : List Case)
    (threshold : ℚ) (metrics : Option (List String)) :
    (∀ p ∈ find_similar_cases target_case all_cases threshold metrics,
        p.1.id ≠ target_case.id) ∧
    (∀ p ∈ find_similar_cases target_case all_cases threshold metrics, threshold ≤ p.2) ∧
    (find_similar_cases target_case all_cases threshold metrics).Pairwise
      (fun x y => y.2 ≤ x.2) ∧
    (∀ q : ℚ,
        (find_similar_cases target_case all_cases threshold metrics).filter
            (fun p => decide (p.2 = q)) =
          (similar_candidates target_case all_cases threshold metrics).filter
            (fun p => decide (p.2 = q))) := by
  refine ⟨?_, ?_, ?_, ?_⟩
  · intro p hp
    rw [find_similar_cases, List.mem_mergeSort] at hp
    exact (similar_candidates_mem hp).1
  · intro p hp
    rw [find_similar_cases, List.mem_mergeSort] at hp
    exact (similar_candidates_mem hp).2
  · have h := List.sorted_mergeSort scoreDescTrans scoreDescTotal
      (similar_candidates target_case all_cases threshold metrics)
    rw [find_similar_cases]
    exact h.imp (fun hb => of_decide_eq_true hb)
  · intro q
    set cands := similar_candidates target_case all_cases threshold metrics with hcands
    set c := cands.filter (fun p => decide (p.2 = q)) with hc
    have hpw : c.Pairwise (fun x y : Case × ℚ => decide (y.2 ≤ x.2) = true) := by
      refine List.pairwise_of_forall_mem_list ?_
      intro a ha b hb
      rw [hc, List.mem_filter] at ha hb
      have ha2 : a.2 = q := of_decide_eq_true ha.2
      have hb2 : b.2 = q := of_decide_eq_true hb.2
      simp [ha2, hb2]
    have hsub : c.Sublist (find_similar_cases target_case all_cases threshold metrics) := by
      rw [find_similar_cases]
      exact List.sublist_mergeSort scoreDescTrans scoreDescTotal hpw (List.filter_sublist cands)
    have hperm :
        ((find_similar_cases target_case all_cases threshold metrics).filter
          (fun p => decide (p.2 = q))).Perm c := by
      rw [find_similar_cases]
      exact (List.mergeSort_perm cands _).filter _
    have hcf : c.filter (fun p => decide (p.2 = q)) = c := by
      rw [List.filter_eq_self]
      intro a ha
      rw [hc, List.mem_filter] at ha
      exact ha.2
    have hsub2 : c.Sublist ((find_similar_cases target_case all_cases threshold metrics).filter
        (fun p => decide (p.2 = q))) := by
      rw [← hcf]
      exact hsub.filter _
    exact (hsub2.eq_of_length hperm.length_eq.symm).symm

/-- C4 witness: the contract instantiated at a concrete call — the result is
sorted non-increasing by score, and the stable-sort characterization holds at
the concrete score value 3/10. -/
theorem C4_find_similar_cases_contract_witness :
    (find_similar_cases discordOnlyCase [discordOnlyCase] (1 / 2) none).Pairwise
      (fun x y => y.2 ≤ x.2) ∧
    ((find_similar_cases discordOnlyCase [discordOnlyCase] (1 / 2) none).filter
        (fun p => decide (p.2 = 3 / 10)) =
      (similar_candidates discordOnlyCase [discordOnlyCase] (1 / 2) none).filter
        (fun p => decide (p.2 = 3 / 10))) :=
  ⟨(C4_find_similar_cases_contract discordOnlyCase [discordOnlyCase] (1 / 2) none).2.2.1,
   (C4_find_similar_cases_contract discordOnlyCase [discordOnlyCase] (1 / 2) none).2.2.2
     (3 / 10)⟩

/-! ### Claim C9: the date filter skips unusable case dates -/

/-- C9: when a `date_range` filter is given, a case whose `date_range.start`
is missing, falsy or unparseable is never rejected by the date predicate (the
predicate is skipped, not failed): filtering with the date criterion present
gives the same verdict as filtering without it.  (That no filter predicate
raises is modelled by `matches_filter` being a total boolean function.) -/
theorem C9_unusable_start_retained (c : Case) (filters : Filters) (fd : DateRange)
    (hfd : filters.date_range = some fd)
    (hbad : c.date_range = none ∨
      ∃ dr, c.date_range = some dr ∧
        (dr.start = none ∨ dr.start = some "" ∨
          ∃ s, dr.start = some s ∧ fromisoformat s = none)) :
    dateReject c.date_range fd = false ∧
    matches_filter c filters = matches_filter c { filters with date_range := none } := by
  have hreject : dateReject c.date_range fd = false := by
    rcases hbad with h | ⟨dr, hdr, hbad⟩
    · rw [h]
      rfl
    · rcases hbad with h1 | h1 | ⟨s, hs, hparse⟩
      · simp only [dateReject, hdr, h1]
      · simp only [dateReject, hdr, h1]
        rfl
      · simp only [dateReject, hdr, hs]
        by_cases he : s = ""
        · rw [if_pos he]
        · rw [if_neg he, hparse]
  refine ⟨hreject, ?_⟩
  unfold matches_filter
  simp [hfd, hreject]

/-- A case whose `date_range.start` does not parse as a date. -/
def badDateCase : Case :=
  { emptyCase with date_range := some ⟨some "not-a-date", none⟩ }

/-- A filter dictionary carrying only a `date_range` window. -/
def dateWindowFilter : Filters :=
  ⟨none, none, some ⟨some "2020-01-01", some "2021-01-01"⟩⟩

/-- C9 witness: the unparseable-start case is not rejected by a concrete date
window, the verdict equals the one with no date criterion, and the case is
in fact retained. -/
theorem C9_unusable_start_retained_witness :
    (dateReject badDateCase.date_range ⟨some "2020-01-01", some "2021-01-01"⟩ = false ∧
      matches_filter badDateCase dateWindowFilter =
        matches_filter badDateCase { dateWindowFilter with date_range := none }) ∧
    matches_filter badDateCase dateWindowFilter = true := by
  constructor
  · exact C9_unusable_start_retained badDateCase dateWindowFilter
      ⟨some "2020-01-01", some "2021-01-01"⟩ rfl
      (Or.inr ⟨⟨some "not-a-date", none⟩, rfl, Or.inr (Or.inr ⟨"not-a-date", rfl, by decide⟩)⟩)
  · decide

/-! ### Infrastructure: ordered `defaultdict(list)` groupings -/

section Grouping

variable {κ β : Type} [DecidableEq κ]

/-- First-match association lookup with `[]` default (proof-side view of a
Python dict of lists). -/
def lookupVals : List (κ × List β) → κ → List β
  | [], _ => []
  | (k1, vs) :: rest, k => if k1 = k then vs else lookupVals rest k

lemma lookupVals_addToGroup (m : List (κ × List β)) (k : κ) (v : β) (k1 : κ) :
    lookupVals (addToGroup m k v) k1 =
      if k1 = k then lookupVals m k ++ [v] else lookupVals m k1 := by
  induction m with
  | nil =>
    by_cases h : k1 = k
    · subst h
      simp [addToGroup, lookupVals]
    · have h' : ¬ k = k1 := fun he => h he.symm
      simp [addToGroup, lookupVals, h, h']
  | cons e rest ih =>
    obtain ⟨k2, vs⟩ := e
    by_cases h2 : k2 = k
    · subst h2
      simp only [addToGroup, if_pos rfl, lookupVals]
      by_cases h1 : k1 = k2
      · subst h1
        simp
      · have h1' : ¬ k2 = k1 := fun he => h1 he.symm
        simp [h1, h1']
    · simp only [addToGroup, if_neg h2, lookupVals, ih]
      by_cases hk : k2 = k1
      · have hk1 : ¬ k1 = k := by
          rintro rfl
          exact h2 hk
        simp [hk, hk1]
      · simp [hk]

lemma keys_addToGroup (m : List (κ × List β)) (k : κ) (v : β) :
    (addToGroup m k v).map Prod.fst =
      if k ∈ m.map Prod.fst then m.map Prod.fst else m.map Prod.fst ++ [k] := by
  induction m with
  | nil => simp [addToGroup]
  | cons e rest ih =>
    obtain ⟨k2, vs⟩ := e
    by_cases h2 : k2 = k
    · subst h2
      simp [addToGroup]
    · simp only [addToGroup, if_neg h2, List.map_cons, List.mem_cons, ih]
      have h2' : ¬ k = k2 := fun he => h2 he.symm
      by_cases hk : k ∈ rest.map Prod.fst <;> simp [hk, h2']

lemma mem_lookupVals {m : List (κ × List β)} (hnd : (m.map Prod.fst).Nodup) {k : κ}
    {vs : List β} (h : (k, vs) ∈ m) : lookupVals m k = vs := by
  induction m with
  | nil => cases h
  | cons e rest ih =>
    obtain ⟨k2, vs2⟩ := e
    simp only [List.map_cons, List.nodup_cons] at hnd
    rcases List.mem_cons.mp h with he | hrest
    · cases he
      simp [lookupVals]
    · have hk2 : ¬ k2 = k := by
        rintro rfl
        exact hnd.1 (List.mem_map.mpr ⟨(k2, vs), hrest, rfl⟩)
      simp [lookupVals, hk2, ih hnd.2 hrest]

lemma foldl_addToGroup_lookup (kvs : List (κ × β)) (m : List (κ × List β)) (k : κ) :
    lookupVals (kvs.foldl (fun acc kv => addToGroup acc kv.1 kv.2) m) k =
      lookupVals m k ++ (kvs.filter (fun kv => kv.1 = k)).map Prod.snd := by
  induction kvs generalizing m with
  | nil => simp
  | cons kv rest ih =>
    obtain ⟨k1, v1⟩ := kv
    simp only [List.foldl_cons, List.filter_cons]
    rw [ih, lookupVals_addToGroup]
    by_cases h : k = k1
    · subst h
      simp
    · have h' : ¬ k1 = k := fun he => h he.symm
      simp [h, h']

lemma foldl_addToGroup_keys_nodup (kvs : List (κ × β)) (m : List (κ × List β))
    (h : (m.map Prod.fst).Nodup) :
    (((kvs.foldl (fun acc kv => addToGroup acc kv.1 kv.2) m)).map Prod.fst).Nodup := by
  induction kvs generalizing m with
  | nil => exact h
  | cons kv rest ih =>
    refine ih _ ?_
    rw [keys_addToGroup]
    split_ifs with hmem
    · exact h
    · simp [List.nodup_append, h, hmem]

lemma foldl_addToGroup_keys_mem (kvs : List (κ × β)) (m : List (κ × List β)) (k : κ) :
    k ∈ ((kvs.foldl (fun acc kv => addToGroup acc kv.1 kv.2) m)).map Prod.fst ↔
      k ∈ m.map Prod.fst ∨ k ∈ kvs.map Prod.fst := by
  induction kvs generalizing m with
  | nil => simp
  | cons kv rest ih =>
    obtain ⟨k1, v1⟩ := kv
    simp only [List.foldl_cons, ih, keys_addToGroup]
    split_ifs with hmem
    · simp only [List.map_cons, List.mem_cons]
      constructor
      · rintro (hm | hr)
        · exact Or.inl hm
        · exact Or.inr (Or.inr hr)
      · rintro (hm | rfl | hr)
        · exact Or.inl hm
        · exact Or.inl hmem
        · exact Or.inr hr
    · simp only [List.mem_append, List.mem_singleton, List.map_cons, List.mem_cons]
      tauto

lemma flatten_addToGroup_perm (m : List (κ × List β)) (k : κ) (v : β) :
    (((addToGroup m k v).map Prod.snd).flatten).Perm ((m.map Prod.snd).flatten ++ [v]) := by
  induction m with
  | nil => simp [addToGroup]
  | cons e rest ih =>
    obtain ⟨k2, vs⟩ := e
    by_cases h2 : k2 = k
    · subst h2
      simp only [addToGroup, eq_self_iff_true, ite_true, List.map_cons, List.flatten_cons]
      have e1 : (vs ++ [v]) ++ ((rest.map Prod.snd).flatten)
          = vs ++ ([v] ++ ((rest.map Prod.snd).flatten)) := by rw [List.append_assoc]
      have e2 : (vs ++ ((rest.map Prod.snd).flatten)) ++ [v]
          = vs ++ (((rest.map Prod.snd).flatten) ++ [v]) := by rw [List.append_assoc]
      rw [e1, e2]
      exact List.Perm.append_left vs List.perm_append_comm
    · simp only [addToGroup, if_neg h2, List.map_cons, List.flatten_cons]
      have e : (vs ++ ((rest.map Prod.snd).flatten)) ++ [v]
          = vs ++ (((rest.map Prod.snd).flatten) ++ [v]) := by rw [List.append_assoc]
      rw [e]
      exact List.Perm.append_left vs ih

lemma foldl_addToGroup_flatten_perm (kvs : List (κ × β)) (m : List (κ × List β)) :
    ((((kvs.foldl (fun acc kv => addToGroup acc kv.1 kv.2) m)).map Prod.snd).flatten).Perm
      ((m.map Prod.snd).flatten ++ kvs.map Prod.snd) := by
  induction kvs generalizing m with
  | nil => simp
  | cons kv rest ih =>
    obtain ⟨k1, v1⟩ := kv
    simp only [List.foldl_cons, List.map_cons]
    have h1 := flatten_addToGroup_perm m k1 v1
    have e : ((m.map Prod.snd).flatten ++ [v1]) ++ rest.map Prod.snd
        = (m.map Prod.snd).flatten ++ (v1 :: rest.map Prod.snd) := by
      rw [List.append_assoc]
      rfl
    rw [← e]
    exact (ih _).trans (h1.append_right _)

lemma groupPairs_keys_nodup (kvs : List (κ × β)) :
    ((groupPairs kvs).map Prod.fst).Nodup :=
  foldl_addToGroup_keys_nodup kvs [] (by simp)

lemma groupPairs_lookup (kvs : List (κ × β)) (k : κ) :
    lookupVals (groupPairs kvs) k = (kvs.filter (fun kv => kv.1 = k)).map Prod.snd := by
  rw [groupPairs, foldl_addToGroup_lookup]
  rfl

lemma groupPairs_entry {kvs : List (κ × β)} {k : κ} {vs : List β}
    (h : (k, vs) ∈ groupPairs kvs) :
    vs = (kvs.filter (fun kv => kv.1 = k)).map Prod.snd := by
  rw [← groupPairs_lookup kvs k]
  exact (mem_lookupVals (groupPairs_keys_nodup kvs) h).symm

lemma groupPairs_keys_mem (kvs : List (κ × β)) (k : κ) :
    k ∈ (groupPairs kvs).map Prod.fst ↔ k ∈ kvs.map Prod.fst := by
  rw [groupPairs, foldl_addToGroup_keys_mem]
  simp

lemma groupPairs_flatten_perm (kvs : List (κ × β)) :
    (((groupPairs kvs).map Prod.snd).flatten).Perm (kvs.map Prod.snd) := by
  have h := foldl_addToGroup_flatten_perm kvs []
  simpa using h

end Grouping

/-! ### Infrastructure: pair enumeration and counting -/

lemma pairsOf_mem {α : Type} {a b : α} :
    ∀ {l : List α}, (a, b) ∈ pairsOf l → a ∈ l ∧ b ∈ l
  | [], h => by cases h
  | x :: xs, h => by
    rw [pairsOf, List.mem_append] at h
    rcases h with h | h
    · obtain ⟨y, hy, he⟩ := List.mem_map.mp h
      cases he
      exact ⟨List.mem_cons_self _ _, List.mem_cons_of_mem _ hy⟩
    · obtain ⟨ha, hb⟩ := pairsOf_mem h
      exact ⟨List.mem_cons_of_mem _ ha, List.mem_cons_of_mem _ hb⟩

/-- Multiplicity of an element in a list (the number of duplicate link
tuples emitted). -/
def countOcc {α : Type} [DecidableEq α] (a : α) : List α → Nat
  | [] => 0
  | x :: xs => (if x = a then 1 else 0) + countOcc a xs

lemma countOcc_append {α : Type} [DecidableEq α] (a : α) (l1 l2 : List α) :
    countOcc a (l1 ++ l2) = countOcc a l1 + countOcc a l2 := by
  induction l1 with
  | nil => simp [countOcc]
  | cons x xs ih => simp [countOcc, ih, Nat.add_assoc]

lemma countOcc_eq_zero_of_not_mem {α : Type} [DecidableEq α] {a : α} {l : List α}
    (h : a ∉ l) : countOcc a l = 0 := by
  induction l with
  | nil => rfl
  | cons x xs ih =>
    have hx : ¬ x = a := fun he => h (he ▸ List.mem_cons_self x xs)
    have hxs : a ∉ xs := fun he => h (List.mem_cons_of_mem _ he)
    simp [countOcc, hx, ih hxs]

lemma countOcc_eq_one_of_nodup_mem {α : Type} [DecidableEq α] {a : α} {l : List α}
    (hnd : l.Nodup) (ha : a ∈ l) : countOcc a l = 1 := by
  induction l with
  | nil => cases ha
  | cons x xs ih =>
    rw [List.nodup_cons] at hnd
    by_cases hx : x = a
    · subst hx
      simp [countOcc, countOcc_eq_zero_of_not_mem hnd.1]
    · rcases List.mem_cons.mp ha with rfl | ha2
      · exact absurd rfl hx
      · simp [countOcc, hx, ih hnd.2 ha2]

lemma countOcc_map_pair {α : Type} [DecidableEq α] (b x : α) (l : List α) :
    countOcc (x, b) (l.map fun y => (x, y)) = countOcc b l := by
  induction l with
  | nil => rfl
  | cons z zs ih => simp [countOcc, ih, Prod.ext_iff]

lemma countOcc_flatMap {α γ : Type} [DecidableEq γ] (l : List α) (f : α → List γ)
    (c : γ) :
    countOcc c (l.flatMap f) = (l.map (fun x => countOcc c (f x))).sum := by
  induction l with
  | nil => rfl
  | cons x xs ih => simp [List.flatMap_cons, countOcc_append, ih]

lemma countOcc_map_tagPair {γ : Type} [DecidableEq γ] (t : String) (a b : γ)
    (l : List (γ × γ)) :
    countOcc (a, b, t) (l.map fun q => (q.1, q.2, t)) = countOcc (a, b) l := by
  induction l with
  | nil => rfl
  | cons z zs ih => simp [countOcc, ih, Prod.ext_iff]

lemma countOcc_map_tagPair_ne {γ : Type} [DecidableEq γ] {t t2 : String} (hne : t2 ≠ t)
    (a b : γ) (l : List (γ × γ)) :
    countOcc (a, b, t) (l.map fun q => (q.1, q.2, t2)) = 0 := by
  refine countOcc_eq_zero_of_not_mem fun hmem => ?_
  obtain ⟨q, _, he⟩ := List.mem_map.mp hmem
  exact hne (congrArg (fun x : γ × γ × String => x.2.2) he)

lemma pairsOf_countOcc_nodup {α : Type} [DecidableEq α] :
    ∀ {l : List α}, l.Nodup → ∀ (a b : α),
      countOcc (a, b) (pairsOf l) = if [a, b].Sublist l then 1 else 0
  | [], _, a, b => by simp [pairsOf, countOcc]
  | x :: xs, hnd, a, b => by
    rw [List.nodup_cons] at hnd
    rw [pairsOf, countOcc_append]
    by_cases hax : a = x
    · subst hax
      have h1 : countOcc (a, b) (xs.map fun y => (a, y)) = countOcc b xs :=
        countOcc_map_pair b a xs
      have h2 : countOcc (a, b) (pairsOf xs) = 0 :=
        countOcc_eq_zero_of_not_mem (fun hmem => hnd.1 (pairsOf_mem hmem).1)
      rw [h1, h2]
      by_cases hb : b ∈ xs
      · rw [countOcc_eq_one_of_nodup_mem hnd.2 hb,
          if_pos (List.cons_sublist_cons.mpr (List.singleton_sublist.mpr hb))]
      · rw [countOcc_eq_zero_of_not_mem hb, if_neg ?_]
        intro hsub
        rcases List.sublist_cons_iff.mp hsub with h | ⟨r, hr, hrsub⟩
        · exact hnd.1 (h.subset (List.mem_cons_self a [b]))
        · injection hr with h1 h2
          subst h2
          exact hb (List.singleton_sublist.mp hrsub)
    · have h1 : countOcc (a, b) (xs.map fun y => (x, y)) = 0 := by
        refine countOcc_eq_zero_of_not_mem fun hmem => ?_
        obtain ⟨y, _, he⟩ := List.mem_map.mp hmem
        exact hax (congrArg Prod.fst he).symm
      have he : ([a, b].Sublist (x :: xs)) ↔ ([a, b].Sublist xs) := by
        constructor
        · intro hsub
          rcases List.sublist_cons_iff.mp hsub with h | ⟨r, hr, _⟩
          · exact h
          · injection hr with h1 _
            exact absurd h1 hax
        · exact fun h => h.cons x
      rw [h1, pairsOf_countOcc_nodup hnd.2 a b, Nat.zero_add]
      simp only [he]

/-! ### Claim C5: helper lemmas about the two entity maps -/

lemma pair_get_sublist {α : Type} (l : List α) (i j : ℕ) (hij : i < j) (hj : j < l.length) :
    [l.get ⟨i, Nat.lt_trans hij hj⟩, l.get ⟨j, hj⟩].Sublist l := by
  induction l generalizing i j with
  | nil => exact absurd hj (Nat.not_lt_zero j)
  | cons x xs ih =>
    match i, j with
    | 0, j + 1 =>
      simp only [List.get]
      exact List.cons_sublist_cons.mpr (List.singleton_sublist.mpr (xs.get_mem _ _))
    | i + 1, j + 1 =>
      simp only [List.get]
      exact (ih i j (Nat.lt_of_succ_lt_succ hij) (Nat.lt_of_succ_lt_succ hj)).cons x

lemma perpKvs_filter (cases : List Case) (k : String) :
    (((cases.filterMap fun c => (perpKey c).map fun j => (j, c.id)).filter
        (fun kv => kv.1 = k)).map Prod.snd) =
      (cases.filter (fun c => perpKey c = some k)).map Case.id := by
  induction cases with
  | nil => rfl
  | cons c rest ih =>
    rw [List.filterMap_cons]
    cases hp : perpKey c with
    | none => simp [List.filter_cons, hp, ih]
    | some k1 =>
      by_cases hk : k1 = k
      · subst hk
        simp [List.filter_cons, hp, ih]
      · simp [List.filter_cons, hp, hk, ih]

lemma platKvs_filter (cases : List Case) (hplat : ∀ c ∈ cases, c.platforms_used.Nodup)
    (p : String) :
    (((cases.flatMap fun c => c.platforms_used.map fun q => (q, c.id)).filter
        (fun kv => kv.1 = p)).map Prod.snd) =
      (cases.filter (fun c => p ∈ c.platforms_used)).map Case.id := by
  induction cases with
  | nil => rfl
  | cons c rest ih =>
    have hc : c.platforms_used.Nodup := hplat c (List.mem_cons_self _ _)
    have hrest : ∀ x ∈ rest, x.platforms_used.Nodup :=
      fun x hx => hplat x (List.mem_cons_of_mem _ hx)
    rw [List.flatMap_cons, List.filter_append, List.map_append, ih hrest]
    have hhead : (((c.platforms_used.map fun q => (q, c.id)).filter
        (fun kv => kv.1 = p)).map Prod.snd) =
        if p ∈ c.platforms_used then [c.id] else [] := by
      rw [List.filter_map]
      have hcomp : ((fun kv : String × Option String => decide (kv.1 = p)) ∘
          fun q => (q, c.id)) = fun q => decide (q = p) := rfl
      rw [hcomp, List.filter_eq]
      by_cases hmem : p ∈ c.platforms_used
      · rw [List.count_eq_one_of_mem hc hmem]
        simp [hmem]
      · rw [List.count_eq_zero_of_not_mem hmem]
        simp [hmem]
    rw [hhead, List.filter_cons]
    by_cases hmem : p ∈ c.platforms_used <;> simp [hmem]

lemma perp_map_entry {cases : List Case} {k : String} {vs : List (Option String)}
    (h : (k, vs) ∈ perp_map cases) :
    vs = (cases.filter (fun c => perpKey c = some k)).map Case.id :=
  (groupPairs_entry h).trans (perpKvs_filter cases k)

lemma platform_map_entry {cases : List Case} (hplat : ∀ c ∈ cases, c.platforms_used.Nodup)
    {p : String} {vs : List (Option String)} (h : (p, vs) ∈ platform_map cases) :
    vs = (cases.filter (fun c => p ∈ c.platforms_used)).map Case.id :=
  (groupPairs_entry h).trans (platKvs_filter cases hplat p)

lemma perp_map_keys_mem (cases : List Case) (k : String) :
    k ∈ (perp_map cases).map Prod.fst ↔ ∃ c ∈ cases, perpKey c = some k := by
  rw [perp_map, groupPairs_keys_mem]
  constructor
  · intro h
    obtain ⟨kv, hkv, rfl⟩ := List.mem_map.mp h
    obtain ⟨c, hc, hf⟩ := List.mem_filterMap.mp hkv
    obtain ⟨k2, hk2, he⟩ := Option.map_eq_some'.mp hf
    cases he
    exact ⟨c, hc, hk2⟩
  · rintro ⟨c, hc, hk⟩
    exact List.mem_map.mpr ⟨(k, c.id),
      List.mem_filterMap.mpr ⟨c, hc, by rw [hk]; rfl⟩, rfl⟩

lemma platform_map_keys_mem (cases : List Case) (p : String) :
    p ∈ (platform_map cases).map Prod.fst ↔ ∃ c ∈ cases, p ∈ c.platforms_used := by
  rw [platform_map, groupPairs_keys_mem]
  constructor
  · intro h
    obtain ⟨kv, hkv, rfl⟩ := List.mem_map.mp h
    obtain ⟨c, hc, hf⟩ := List.mem_flatMap.mp hkv
    obtain ⟨q, hq, he⟩ := List.mem_map.mp hf
    cases he
    exact ⟨c, hc, hq⟩
  · rintro ⟨c, hc, hp⟩
    exact List.mem_map.mpr ⟨(p, c.id),
      List.mem_flatMap.mpr ⟨c, hc, List.mem_map.mpr ⟨p, hp, rfl⟩⟩, rfl⟩

lemma sum_indicator_keys {κ β' : Type} [DecidableEq κ] (m : List (κ × β')) (k : κ)
    (hnd : (m.map Prod.fst).Nodup) (hk : k ∈ m.map Prod.fst) :
    (m.map (fun e => if e.1 = k then 1 else 0)).sum = 1 := by
  induction m with
  | nil => cases hk
  | cons e rest ih =>
    simp only [List.map_cons, List.nodup_cons] at hnd
    by_cases he : e.1 = k
    · have hz : (rest.map (fun e2 => if e2.1 = k then 1 else 0)).sum = 0 := by
        refine List.sum_eq_zero fun x hx => ?_
        obtain ⟨e2, he2, rfl⟩ := List.mem_map.mp hx
        rw [if_neg]
        rintro rfl
        exact hnd.1 (he ▸ List.mem_map.mpr ⟨e2, he2, rfl⟩)
      simp [he, hz]
    · have hk2 : k ∈ rest.map Prod.fst := by
        rw [List.map_cons] at hk
        rcases List.mem_cons.mp hk with h | h
        · exact absurd h.symm he
        · exact h
      simp [he, ih hnd.2 hk2]

lemma sum_indicator_countP {κ β' : Type} (m : List (κ × β')) (pred : κ → Bool) :
    (m.map (fun e => if pred e.1 then 1 else 0)).sum = (m.map Prod.fst).countP pred := by
  induction m with
  | nil => rfl
  | cons e rest ih =>
    by_cases he : pred e.1 <;> simp [List.countP_cons, he, ih, Nat.add_comm]

lemma sum_indicator_mem_finset {β' : Type} (m : List (String × β')) (S : Finset String)
    (hnd : (m.map Prod.fst).Nodup) (hS : ∀ p ∈ S, p ∈ m.map Prod.fst) :
    (m.map (fun e => if e.1 ∈ S then 1 else 0)).sum = S.card := by
  have h1 : (m.map (fun e => if e.1 ∈ S then 1 else 0)).sum =
      (m.map Prod.fst).countP (fun p => decide (p ∈ S)) := by
    rw [← sum_indicator_countP m (fun p => decide (p ∈ S))]
    simp
  rw [h1, List.countP_eq_length_filter]
  have h2 : ((m.map Prod.fst).filter (fun p => decide (p ∈ S))).Nodup :=
    hnd.filter _
  rw [← List.toFinset_card_of_nodup h2, List.toFinset_filter]
  have h3 : (m.map Prod.fst).toFinset.filter (fun p => decide (p ∈ S)) =
      (m.map Prod.fst).toFinset ∩ S := by
    ext p
    simp [List.mem_toFinset, Finset.mem_filter, Finset.mem_inter]
  rw [h3, Finset.inter_eq_right.mpr]
  intro p hp
  exact List.mem_toFinset.mpr (hS p hp)

/-- C5: for cases with pairwise distinct ids and duplicate-free platform
lists, `entity_matching` emits exactly one `same_perpetrator` tuple
`(id_i, id_j)` for each pair `i < j` of cases sharing a truthy perpetrator
`anonymized_id` (and none otherwise), and exactly one `same_platform` tuple
per shared platform: the `(id_i, id_j, same_platform)` multiplicity is the
cardinality of the intersection of the two platform sets. -/
theorem C5_entity_matching_pair_counts (cases : List Case)
    (hids : (cases.map Case.id).Nodup)
    (hplat : ∀ c ∈ cases, c.platforms_used.Nodup)
    (i j : ℕ) (hij : i < j) (hj : j < cases.length) :
    (countOcc ((cases.get ⟨i, Nat.lt_trans hij hj⟩).id, (cases.get ⟨j, hj⟩).id,
          "same_perpetrator") (entity_matching cases) =
      if perpKey (cases.get ⟨i, Nat.lt_trans hij hj⟩) ≠ none ∧
          perpKey (cases.get ⟨i, Nat.lt_trans hij hj⟩) =
            perpKey (cases.get ⟨j, hj⟩) then 1 else 0) ∧
    (countOcc ((cases.get ⟨i, Nat.lt_trans hij hj⟩).id, (cases.get ⟨j, hj⟩).id,
          "same_platform") (entity_matching cases) =
      ((cases.get ⟨i, Nat.lt_trans hij hj⟩).platforms_used.toFinset ∩
        (cases.get ⟨j, hj⟩).platforms_used.toFinset).card) := by
  set A := cases.get ⟨i, Nat.lt_trans hij hj⟩ with hA
  set B := cases.get ⟨j, hj⟩ with hB
  have hAmem : A ∈ cases := by
    rw [hA]
    exact cases.get_mem _ _
  have hBmem : B ∈ cases := by
    rw [hB]
    exact cases.get_mem _ _
  have hAB : [A, B].Sublist cases := by
    rw [hA, hB]
    exact pair_get_sublist cases i j hij hj
  have hinj := List.inj_on_of_nodup_map hids
  have entry_count_perp : ∀ k vs, (k, vs) ∈ perp_map cases →
      countOcc (A.id, B.id) (pairsOf vs) =
        if perpKey A = some k ∧ perpKey B = some k then 1 else 0 := by
    intro k vs hmem
    have hvs := perp_map_entry hmem
    by_cases hcond : perpKey A = some k ∧ perpKey B = some k
    · rw [if_pos hcond]
      have hnodvs : vs.Nodup := by
        rw [hvs]
        exact hids.sublist ((List.filter_sublist cases).map Case.id)
      rw [pairsOf_countOcc_nodup hnodvs, if_pos]
      rw [hvs]
      have h2 : [A, B].filter (fun c => perpKey c = some k) = [A, B] := by
        rw [List.filter_eq_self]
        intro c hc
        rcases List.mem_cons.mp hc with rfl | hc2
        · simp [hcond.1]
        · rcases List.mem_cons.mp hc2 with rfl | hc3
          · simp [hcond.2]
          · cases hc3
      have h3 : [A, B].Sublist (cases.filter (fun c => perpKey c = some k)) := by
        rw [← h2]
        exact hAB.filter _
      exact h3.map Case.id
    · rw [if_neg hcond]
      refine countOcc_eq_zero_of_not_mem fun hmem2 => ?_
      obtain ⟨ha, hb⟩ := pairsOf_mem hmem2
      rw [hvs] at ha hb
      obtain ⟨cA2, hcA2, hidA⟩ := List.mem_map.mp ha
      obtain ⟨cB2, hcB2, hidB⟩ := List.mem_map.mp hb
      have hcA2m := List.mem_filter.mp hcA2
      have hcB2m := List.mem_filter.mp hcB2
      have heqA : cA2 = A := hinj hcA2m.1 hAmem hidA
      have heqB : cB2 = B := hinj hcB2m.1 hBmem hidB
      exact hcond ⟨heqA ▸ of_decide_eq_true hcA2m.2, heqB ▸ of_decide_eq_true hcB2m.2⟩
  have entry_count_plat : ∀ p vs, (p, vs) ∈ platform_map cases →
      countOcc (A.id, B.id) (pairsOf vs) =
        if p ∈ A.platforms_used ∧ p ∈ B.platforms_used then 1 else 0 := by
    intro p vs hmem
    have hvs := platform_map_entry hplat hmem
    by_cases hcond : p ∈ A.platforms_used ∧ p ∈ B.platforms_used
    · rw [if_pos hcond]
      have hnodvs : vs.Nodup := by
        rw [hvs]
        exact hids.sublist ((List.filter_sublist cases).map Case.id)
      rw [pairsOf_countOcc_nodup hnodvs, if_pos]
      rw [hvs]
      have h2 : [A, B].filter (fun c => p ∈ c.platforms_used) = [A, B] := by
        rw [List.filter_eq_self]
        intro c hc
        rcases List.mem_cons.mp hc with rfl | hc2
        · simp [hcond.1]
        · rcases List.mem_cons.mp hc2 with rfl | hc3
          · simp [hcond.2]
          · cases hc3
      have h3 : [A, B].Sublist (cases.filter (fun c => p ∈ c.platforms_used)) := by
        rw [← h2]
        exact hAB.filter _
      exact h3.map Case.id
    · rw [if_neg hcond]
      refine countOcc_eq_zero_of_not_mem fun hmem2 => ?_
      obtain ⟨ha, hb⟩ := pairsOf_mem hmem2
      rw [hvs] at ha hb
      obtain ⟨cA2, hcA2, hidA⟩ := List.mem_map.mp ha
      obtain ⟨cB2, hcB2, hidB⟩ := List.mem_map.mp hb
      have hcA2m := List.mem_filter.mp hcA2
      have hcB2m := List.mem_filter.mp hcB2
      have heqA : cA2 = A := hinj hcA2m.1 hAmem hidA
      have heqB : cB2 = B := hinj hcB2m.1 hBmem hidB
      exact hcond ⟨heqA ▸ of_decide_eq_true hcA2m.2, heqB ▸ of_decide_eq_true hcB2m.2⟩
  constructor
  · rw [entity_matching, countOcc_append]
    have hplatzero : countOcc (A.id, B.id, "same_perpetrator")
        ((platform_map cases).flatMap fun e =>
          (pairsOf e.2).map fun p => (p.1, p.2, "same_platform")) = 0 := by
      rw [countOcc_flatMap]
      refine List.sum_eq_zero fun x hx => ?_
      obtain ⟨e, _, rfl⟩ := List.mem_map.mp hx
      exact countOcc_map_tagPair_ne (by decide) _ _ _
    rw [hplatzero, Nat.add_zero, countOcc_flatMap]
    have hmapeq : ((perp_map cases).map fun e =>
        countOcc (A.id, B.id, "same_perpetrator")
          ((pairsOf e.2).map fun p => (p.1, p.2, "same_perpetrator"))) =
        ((perp_map cases).map fun e => countOcc (A.id, B.id) (pairsOf e.2)) :=
      List.map_congr_left fun e _ => countOcc_map_tagPair _ _ _ _
    rw [hmapeq]
    by_cases h : perpKey A ≠ none ∧ perpKey A = perpKey B
    · obtain ⟨kstar, hkstar⟩ := Option.ne_none_iff_exists'.mp h.1
      rw [if_pos h]
      have hmapeq2 : ((perp_map cases).map fun e => countOcc (A.id, B.id) (pairsOf e.2)) =
          ((perp_map cases).map fun e => if e.1 = kstar then 1 else 0) := by
        refine List.map_congr_left fun e he => ?_
        rw [entry_count_perp e.1 e.2 (by rw [Prod.mk.eta]; exact he)]
        refine if_congr ?_ rfl rfl
        constructor
        · rintro ⟨h1, _⟩
          rw [hkstar] at h1
          exact (Option.some.injEq _ _).mp h1.symm
        · rintro rfl
          exact ⟨hkstar, h.2 ▸ hkstar⟩
      rw [hmapeq2]
      exact sum_indicator_keys (perp_map cases) kstar (groupPairs_keys_nodup _)
        ((perp_map_keys_mem cases kstar).mpr ⟨A, hAmem, hkstar⟩)
    · rw [if_neg h]
      refine List.sum_eq_zero fun x hx => ?_
      obtain ⟨e, he, rfl⟩ := List.mem_map.mp hx
      rw [entry_count_perp e.1 e.2 (by rw [Prod.mk.eta]; exact he), if_neg]
      rintro ⟨h1, h2⟩
      exact h ⟨by rw [h1]; exact Option.some_ne_none _, by rw [h1, h2]⟩
  · rw [entity_matching, countOcc_append]
    have hperpzero : countOcc (A.id, B.id, "same_platform")
        ((perp_map cases).flatMap fun e =>
          (pairsOf e.2).map fun p => (p.1, p.2, "same_perpetrator")) = 0 := by
      rw [countOcc_flatMap]
      refine List.sum_eq_zero fun x hx => ?_
      obtain ⟨e, _, rfl⟩ := List.mem_map.mp hx
      exact countOcc_map_tagPair_ne (by decide) _ _ _
    rw [hperpzero, Nat.zero_add, countOcc_flatMap]
    have hmapeq : ((platform_map cases).map fun e =>
        countOcc (A.id, B.id, "same_platform")
          ((pairsOf e.2).map fun p => (p.1, p.2, "same_platform"))) =
        ((platform_map cases).map fun e => countOcc (A.id, B.id) (pairsOf e.2)) :=
      List.map_congr_left fun e _ => countOcc_map_tagPair _ _ _ _
    rw [hmapeq]
    have hmapeq2 : ((platform_map cases).map fun e => countOcc (A.id, B.id) (pairsOf e.2)) =
        ((platform_map cases).map fun e =>
          if e.1 ∈ A.platforms_used.toFinset ∩ B.platforms_used.toFinset then 1 else 0) := by
      refine List.map_congr_left fun e he => ?_
      rw [entry_count_plat e.1 e.2 (by rw [Prod.mk.eta]; exact he)]
      refine if_congr ?_ rfl rfl
      simp [Finset.mem_inter, List.mem_toFinset]
    rw [hmapeq2]
    refine sum_indicator_mem_finset (platform_map cases) _ (groupPairs_keys_nodup _)
      fun p hp => ?_
    rw [Finset.mem_inter, List.mem_toFinset, List.mem_toFinset] at hp
    exact (platform_map_keys_mem cases p).mpr ⟨A, hAmem, hp.1⟩

/-- A case with only an id and the shared perpetrator token `"P1"`. -/
def perpP1Case (n : String) : Case :=
  { emptyCase with id := some n, perpetrator_demographics := some ⟨none, none, some "P1"⟩ }

/-- A case with an id and two platforms `"A"`, `"B"`. -/
def twoPlatformCase (n : String) : Case :=
  { emptyCase with id := some n, platforms_used := ["A", "B"] }

/-- C5 witness: three cases sharing perpetrator `"P1"` produce exactly the
three `same_perpetrator` tuples (C1,C2), (C1,C3), (C2,C3) — each pair count
is 1 via the theorem, and the full output is exactly that list — and a pair
of cases sharing the two platforms `"A"` and `"B"` gets `same_platform`
multiplicity 2. -/
theorem C5_entity_matching_pair_counts_witness :
    (countOcc (some "C1", some "C2", "same_perpetrator")
      (entity_matching [perpP1Case "C1", perpP1Case "C2", perpP1Case "C3"]) = 1) ∧
    (countOcc (some "C1", some "C3", "same_perpetrator")
      (entity_matching [perpP1Case "C1", perpP1Case "C2", perpP1Case "C3"]) = 1) ∧
    (countOcc (some "C2", some "C3", "same_perpetrator")
      (entity_matching [perpP1Case "C1", perpP1Case "C2", perpP1Case "C3"]) = 1) ∧
    (entity_matching [perpP1Case "C1", perpP1Case "C2", perpP1Case "C3"] =
      [(some "C1", some "C2", "same_perpetrator"),
       (some "C1", some "C3", "same_perpetrator"),
       (some "C2", some "C3", "same_perpetrator")]) ∧
    (countOcc (some "D1", some "D2", "same_platform")
      (entity_matching [twoPlatformCase "D1", twoPlatformCase "D2"]) = 2) := by
  refine ⟨?_, ?_, ?_, by decide, ?_⟩
  · have h := (C5_entity_matching_pair_counts
      [perpP1Case "C1", perpP1Case "C2", perpP1Case "C3"]
      (by decide) (by decide) 0 1 (by decide) (by decide)).1
    rw [if_pos (by decide)] at h
    exact h
  · have h := (C5_entity_matching_pair_counts
      [perpP1Case "C1", perpP1Case "C2", perpP1Case "C3"]
      (by decide) (by decide) 0 2 (by decide) (by decide)).1
    rw [if_pos (by decide)] at h
    exact h
  · have h := (C5_entity_matching_pair_counts
      [perpP1Case "C1", perpP1Case "C2", perpP1Case "C3"]
      (by decide) (by decide) 1 2 (by decide) (by decide)).1
    rw [if_pos (by decide)] at h
    exact h
  · have h := (C5_entity_matching_pair_counts
      [twoPlatformCase "D1", twoPlatformCase "D2"]
      (by decide) (by decide) 0 1 (by decide) (by decide)).2
    exact h.trans (by decide)

/-! ### Claim C8: `trend_analysis` -/

lemma countOcc_eq_length_filter {α : Type} [DecidableEq α] (a : α) (l : List α) :
    countOcc a l = (l.filter fun x => x = a).length := by
  induction l with
  | nil => rfl
  | cons x xs ih =>
    by_cases h : x = a <;> simp [countOcc, List.filter_cons, h, ih, Nat.add_comm]

lemma counterList_count (xs : List String) {p : String} {n : Nat}
    (h : (p, n) ∈ counterList xs) : n = countOcc p xs := by
  rw [counterList] at h
  obtain ⟨e, he, heq⟩ := List.mem_map.mp h
  injection heq with h1 h2
  subst h1
  subst h2
  have hvs := groupPairs_entry (show (e.1, e.2) ∈ groupPairs (xs.map fun x => (x, x)) from
    by rw [Prod.mk.eta]; exact he)
  rw [hvs, List.length_map, List.filter_map, List.length_map, countOcc_eq_length_filter]
  rfl

lemma timeKvs_snd (cases : List Case) :
    ((cases.filterMap fun c => (startYear c).map fun y => (y, c)).map Prod.snd) =
      cases.filter (fun c => (startYear c).isSome) := by
  induction cases with
  | nil => rfl
  | cons c rest ih =>
    rw [List.filterMap_cons, List.filter_cons]
    cases hy : startYear c with
    | none => simp [ih]
    | some y => simp [ih]

lemma timeKvs_filter (cases : List Case) (y : Nat) :
    (((cases.filterMap fun c => (startYear c).map fun z => (z, c)).filter
        (fun kv => kv.1 = y)).map Prod.snd) =
      cases.filter (fun c => startYear c = some y) := by
  induction cases with
  | nil => rfl
  | cons c rest ih =>
    rw [List.filterMap_cons]
    cases hy : startYear c with
    | none => simp [List.filter_cons, hy, ih]
    | some y1 =>
      by_cases hk : y1 = y
      · subst hk
        simp [List.filter_cons, hy, ih]
      · simp [List.filter_cons, hy, hk, ih]

lemma time_periods_entry {cases : List Case} {y : Nat} {b : List Case}
    (h : (y, b) ∈ time_periods cases) :
    b = cases.filter (fun c => startYear c = some y) :=
  (groupPairs_entry h).trans (timeKvs_filter cases y)

lemma yearAscTrans (a b c : Nat × List Case) :
    (fun x y : Nat × List Case => decide (x.1 ≤ y.1)) a b = true →
    (fun x y : Nat × List Case => decide (x.1 ≤ y.1)) b c = true →
    (fun x y : Nat × List Case => decide (x.1 ≤ y.1)) a c = true := by
  simp only [decide_eq_true_eq]
  exact Nat.le_trans

lemma yearAscTotal (a b : Nat × List Case) :
    ((fun x y : Nat × List Case => decide (x.1 ≤ y.1)) a b ||
     (fun x y : Nat × List Case => decide (x.1 ≤ y.1)) b a) = true := by
  simp only [Bool.or_eq_true, decide_eq_true_eq]
  exact Nat.le_total a.1 b.1

lemma countDescTrans (a b c : String × Nat) :
    (fun x y : String × Nat => decide (y.2 ≤ x.2)) a b = true →
    (fun x y : String × Nat => decide (y.2 ≤ x.2)) b c = true →
    (fun x y : String × Nat => decide (y.2 ≤ x.2)) a c = true := by
  simp only [decide_eq_true_eq]
  exact fun hab hbc => Nat.le_trans hbc hab

lemma countDescTotal (a b : String × Nat) :
    ((fun x y : String × Nat => decide (y.2 ≤ x.2)) a b ||
     (fun x y : String × Nat => decide (y.2 ≤ x.2)) b a) = true := by
  simp only [Bool.or_eq_true, decide_eq_true_eq]
  exact Nat.le_total b.2 a.2

/-- The keys of `counterList xs` are the keys of the underlying grouping. -/
lemma counterList_keys_eq (xs : List String) :
    (counterList xs).map Prod.fst = (groupPairs (xs.map fun x => (x, x))).map Prod.fst := by
  rw [counterList, List.map_map]
  rfl

lemma counterList_keys_nodup (xs : List String) :
    ((counterList xs).map Prod.fst).Nodup := by
  rw [counterList_keys_eq]
  exact groupPairs_keys_nodup _

lemma counterList_keys_mem (xs : List String) (p : String) :
    p ∈ (counterList xs).map Prod.fst ↔ p ∈ xs := by
  rw [counterList_keys_eq, groupPairs_keys_mem, List.map_map]
  simp

lemma counterList_length (xs : List String) :
    (counterList xs).length = xs.toFinset.card := by
  have h1 : (counterList xs).length = ((counterList xs).map Prod.fst).length :=
    (List.length_map _ _).symm
  rw [h1, ← List.toFinset_card_of_nodup (counterList_keys_nodup xs)]
  congr 1
  ext p
  rw [List.mem_toFinset, List.mem_toFinset, counterList_keys_mem]

lemma counterList_mem_of_key (xs : List String) {p : String} (h : p ∈ xs) :
    (p, countOcc p xs) ∈ counterList xs := by
  have hk : p ∈ (counterList xs).map Prod.fst := (counterList_keys_mem xs p).mpr h
  obtain ⟨pr, hpr, he⟩ := List.mem_map.mp hk
  have hc := counterList_count xs
    (show (pr.1, pr.2) ∈ counterList xs from by rw [Prod.mk.eta]; exact hpr)
  have hpr2 : pr = (p, countOcc p xs) :=
    Prod.ext_iff.mpr ⟨he, hc.trans (by rw [he])⟩
  rw [← hpr2]
  exact hpr

lemma time_periods_keys_mem (cases : List Case) (y : Nat) :
    y ∈ (time_periods cases).map Prod.fst ↔ ∃ c ∈ cases, startYear c = some y := by
  rw [time_periods, groupPairs_keys_mem]
  constructor
  · intro h
    obtain ⟨kv, hkv, rfl⟩ := List.mem_map.mp h
    obtain ⟨c, hc, hf⟩ := List.mem_filterMap.mp hkv
    obtain ⟨y2, hy2, he⟩ := Option.map_eq_some'.mp hf
    cases he
    exact ⟨c, hc, hy2⟩
  · rintro ⟨c, hc, hy⟩
    exact List.mem_map.mpr ⟨(y, c), List.mem_filterMap.mpr ⟨c, hc, by rw [hy]; rfl⟩, rfl⟩

/-- A case dated 2021 with the given id and platform list. -/
def case2021 (n : String) (ps : List String) : Case :=
  { emptyCase with
    id := some n
    platforms_used := ps
    date_range := some ⟨some "2021-06-01", none⟩ }

/-- C8: `trend_analysis` buckets cases by the calendar year parsed from
`date_range.start`, dropping exactly the cases with missing/falsy/unparseable
start from the temporal buckets (the joined buckets are a permutation of the
parseable-start cases); exactly the bucketed years receive a
`platform_trends` entry; each entry is the top-(up to)-5 most-frequent
selection over that year's platform occurrences: it has
`min 5 (#distinct platforms)` pairs with distinct keys drawn from the year's
platforms, each key paired with its exact occurrence count, counts
non-increasing, and every platform left out has a count no larger than every
count in the entry; and on three cases all dated 2021 with platforms
`["A"], ["A"], ["B"]` the result maps 2021 to `{"A": 2, "B": 1}`. -/
theorem C8_trend_analysis_buckets (cases : List Case) :
    ((((time_periods cases).map Prod.snd).flatten).Perm
      (cases.filter (fun c => (startYear c).isSome))) ∧
    (∀ y : Nat, y ∈ (trend_analysis cases).platform_trends.map Prod.fst ↔
      ∃ c ∈ cases, startYear c = some y) ∧
    (∀ y entry, (y, entry) ∈ (trend_analysis cases).platform_trends →
      entry.length = min 5 (((cases.filter (fun c => startYear c = some y)).flatMap
        Case.platforms_used).toFinset.card) ∧
      (entry.map Prod.fst).Nodup ∧
      entry.Pairwise (fun a b => b.2 ≤ a.2) ∧
      (∀ pr ∈ entry,
        pr.1 ∈ (cases.filter (fun c => startYear c = some y)).flatMap Case.platforms_used ∧
        pr.2 = countOcc pr.1 ((cases.filter (fun c => startYear c = some y)).flatMap
          Case.platforms_used)) ∧
      (∀ q ∈ (cases.filter (fun c => startYear c = some y)).flatMap Case.platforms_used,
        q ∉ entry.map Prod.fst →
        ∀ pr ∈ entry, countOcc q ((cases.filter (fun c => startYear c = some y)).flatMap
          Case.platforms_used) ≤ pr.2)) ∧
    ((trend_analysis [case2021 "E1" ["A"], case2021 "E2" ["A"],
        case2021 "E3" ["B"]]).platform_trends = [(2021, [("A", 2), ("B", 1)])]) := by
  refine ⟨?_, ?_, ?_, ?_⟩
  · have h := groupPairs_flatten_perm (cases.filterMap fun c => (startYear c).map fun y => (y, c))
    rw [← timeKvs_snd]
    exact h
  · intro y
    have hkeys : (trend_analysis cases).platform_trends.map Prod.fst =
        (sortByYear (time_periods cases)).map Prod.fst := by
      simp only [trend_analysis]
      rw [List.map_map]
      rfl
    rw [hkeys, sortByYear]
    have hperm : ((time_periods cases).mergeSort
        (fun x y => decide (x.1 ≤ y.1))).map Prod.fst |>.Perm
        ((time_periods cases).map Prod.fst) :=
      (List.mergeSort_perm (time_periods cases) _).map Prod.fst
    rw [hperm.mem_iff, time_periods_keys_mem]
  · intro y entry hmem
    simp only [trend_analysis, List.mem_map] at hmem
    obtain ⟨e, he, heq⟩ := hmem
    injection heq with h1 h2
    subst h1
    subst h2
    have heb : e ∈ time_periods cases := by
      rw [sortByYear] at he
      exact List.mem_mergeSort.mp he
    have hbucket : e.2 = cases.filter (fun c => startYear c = some e.1) :=
      time_periods_entry (show (e.1, e.2) ∈ time_periods cases from
        by rw [Prod.mk.eta]; exact heb)
    rw [← hbucket]
    set cl := counterList (e.2.flatMap Case.platforms_used) with hcl
    set sorted := cl.mergeSort (fun x y => decide (y.2 ≤ x.2)) with hsorted
    have hsortednd : (sorted.map Prod.fst).Nodup :=
      (((List.mergeSort_perm cl _).map Prod.fst).nodup_iff).mpr (counterList_keys_nodup _)
    have hentry_sub : (most_common 5 cl).Sublist sorted := List.take_sublist 5 sorted
    have hmem_cl : ∀ pr ∈ most_common 5 cl, pr ∈ cl := fun pr hpr =>
      List.mem_mergeSort.mp (hentry_sub.subset hpr)
    refine ⟨?_, ?_, ?_, ?_, ?_⟩
    · rw [most_common, List.length_take, ← hsorted, List.length_mergeSort, hcl,
        counterList_length]
    · exact hsortednd.sublist (hentry_sub.map Prod.fst)
    · have hs := List.sorted_mergeSort countDescTrans countDescTotal cl
      have := hs.sublist hentry_sub
      exact this.imp fun hb => of_decide_eq_true hb
    · intro pr hpr
      have hpr2 := hmem_cl pr hpr
      have hcount := counterList_count _
        (show (pr.1, pr.2) ∈ cl from by rw [Prod.mk.eta]; exact hpr2)
      have hkey : pr.1 ∈ e.2.flatMap Case.platforms_used :=
        (counterList_keys_mem _ _).mp (List.mem_map.mpr ⟨pr, hpr2, rfl⟩)
      exact ⟨hkey, hcount⟩
    · intro q hq hqnot pr hpr
      have hqcl : (q, countOcc q (e.2.flatMap Case.platforms_used)) ∈ cl :=
        counterList_mem_of_key _ hq
      have hqs : (q, countOcc q (e.2.flatMap Case.platforms_used)) ∈ sorted :=
        List.mem_mergeSort.mpr hqcl
      have hqne : (q, countOcc q (e.2.flatMap Case.platforms_used)) ∉ most_common 5 cl :=
        fun hin => hqnot (List.mem_map.mpr ⟨_, hin, rfl⟩)
      have hqdrop : (q, countOcc q (e.2.flatMap Case.platforms_used)) ∈ sorted.drop 5 := by
        rcases List.mem_append.mp ((List.take_append_drop 5 sorted) ▸ hqs) with h | h
        · exact absurd h hqne
        · exact h
      have hp := List.sorted_mergeSort countDescTrans countDescTotal cl
      rw [← hsorted, ← List.take_append_drop 5 sorted] at hp
      have hrel := (List.pairwise_append.mp hp).2.2 pr hpr _ hqdrop
      exact of_decide_eq_true hrel
  · have h1 : time_periods [case2021 "E1" ["A"], case2021 "E2" ["A"], case2021 "E3" ["B"]] =
        [(2021, [case2021 "E1" ["A"], case2021 "E2" ["A"], case2021 "E3" ["B"]])] := by
      decide
    have h2 : sortByYear [(2021, [case2021 "E1" ["A"], case2021 "E2" ["A"],
        case2021 "E3" ["B"]])] = [(2021, [case2021 "E1" ["A"], case2021 "E2" ["A"],
        case2021 "E3" ["B"]])] := by
      rw [sortByYear, List.mergeSort_singleton]
    have h3 : counterList (([case2021 "E1" ["A"], case2021 "E2" ["A"],
        case2021 "E3" ["B"]]).flatMap Case.platforms_used) = [("A", 2), ("B", 1)] := by
      decide
    have h4 : most_common 5 [("A", 2), ("B", 1)] = [("A", 2), ("B", 1)] := by
      rw [most_common, List.mergeSort_of_sorted (by decide)]
      rfl
    simp only [trend_analysis, h1, h2, List.map_cons, List.map_nil, h3, h4]

/-- C8 witness: the general facts instantiated on the concrete 2021 scenario:
year 2021 receives an entry, the entry `[("A",2),("B",1)]` has length
`min 5 2`, and the pair `("A",2)` records the exact occurrence count of `"A"`
among the year-2021 cases. -/
theorem C8_trend_analysis_buckets_witness :
    ((2021 : Nat) ∈ (trend_analysis [case2021 "E1" ["A"], case2021 "E2" ["A"],
        case2021 "E3" ["B"]]).platform_trends.map Prod.fst) ∧
    (([("A", 2), ("B", 1)] : List (String × Nat)).length =
      min 5 (((([case2021 "E1" ["A"], case2021 "E2" ["A"], case2021 "E3" ["B"]]).filter
          (fun c => startYear c = some 2021)).flatMap Case.platforms_used).toFinset.card)) ∧
    ((("A", 2) : String × Nat).2 = countOcc "A"
      ((([case2021 "E1" ["A"], case2021 "E2" ["A"], case2021 "E3" ["B"]]).filter
        (fun c => startYear c = some 2021)).flatMap Case.platforms_used)) := by
  have hthm := C8_trend_analysis_buckets
    [case2021 "E1" ["A"], case2021 "E2" ["A"], case2021 "E3" ["B"]]
  have hmem : ((2021 : Nat), [("A", 2), ("B", 1)]) ∈
      (trend_analysis [case2021 "E1" ["A"], case2021 "E2" ["A"],
        case2021 "E3" ["B"]]).platform_trends := by
    rw [hthm.2.2.2]
    exact List.mem_singleton.mpr rfl
  have h := hthm.2.2.1 2021 [("A", 2), ("B", 1)] hmem
  refine ⟨(hthm.2.1 2021).mpr
    ⟨case2021 "E1" ["A"], List.mem_cons_self _ _, by decide⟩, h.1,
    (h.2.2.2.1 ("A", 2) (List.mem_cons_self _ _)).2⟩

end CaseLinker
